import Mathlib

/-!
Verification of the LAS (Log ASCII Standard) well-log document model of this
repository: parser (`readLAS`), writer (`writeLAS`), and the curve mutation
engine (`renameCurve`, `deleteCurve`, `addDerivedCurveNamed`,
`createPetroCurve`, `ensureRowsFromCurves`, `parseOperatorExpr`).

Modelling conventions:
* JS numbers are modelled by `JsNum`, explicit fractions over `ℤ` that
  the Lean kernel can evaluate.  A cell of a data row or of a curve's
  `data` array is a `Cell`: a JS `number` (`Cell.num`), `NaN`/`Infinity`
  (`Cell.nan`/`Cell.inf`/`Cell.ninf`), JS `null` (`Cell.null`) or an array
  hole / `undefined` (`Cell.undef`).  Double overflow and the rounding of
  decimal literals to binary doubles are not modelled: a finite rational
  stands for a finite double, except where an explicit finiteness guard of
  the source is mirrored by `jsFinite`.
* JS regular expressions of the source are hand-translated to character-list
  functions with the exact backtracking semantics of the original patterns,
  documented at each translation.  The regex class `\s` and the class
  `[ \t]` are both modelled as space-or-tab: the source lines the parsers
  see contain no `\n`/`\r` (newline normalisation and line splitting happen
  first), and other JS whitespace code points are not modelled.
* Mutating JS functions become Lean functions returning the new document;
  a JS `throw` becomes an `Option`/`Except` failure, and a thrown exception
  leaves the document unchanged (the source throws before mutating).
* The JS exponentiation operator `**` with non-integral exponents (used only
  by `createPetroCurve`) is transcendental and is modelled as an explicit
  function parameter `jsPow` of the derivation.
-/

/-- JS whitespace as far as this model needs it: space or tab (see the file
header: the lines fed to the parsers contain no newline characters). -/
def jsIsWs (c : Char) : Bool :=
  c = ' ' || c = '\t'

/-- JS `String.prototype.trimEnd` restricted to the modelled whitespace. -/
def jsTrimEnd (s : String) : String :=
  String.mk (s.toList.reverse.dropWhile jsIsWs).reverse

/-- JS `String.prototype.trimStart` restricted to the modelled whitespace. -/
def jsTrimStart (s : String) : String :=
  String.mk (s.toList.dropWhile jsIsWs)

/-- JS `String.prototype.trim` restricted to the modelled whitespace. -/
def jsTrim (s : String) : String :=
  jsTrimStart (jsTrimEnd s)

/-- JS `String.prototype.toUpperCase` (character-wise; the mnemonics and
keywords it is applied to are ASCII). -/
def jsToUpper (s : String) : String :=
  String.mk (s.toList.map Char.toUpper)

/-- JS `String.prototype.padEnd(n, " ")`. -/
def jsPadEnd (s : String) (n : ℕ) : String :=
  s ++ String.mk (List.replicate (n - s.length) ' ')

/-- Worker for `jsSplitTokens`: accumulate the current token (reversed). -/
def jsSplitTokensGo (p : Char → Bool) : List Char → List Char → List String
  | [], acc => if acc.isEmpty then [] else [String.mk acc.reverse]
  | c :: cs, acc =>
    if p c then
      (if acc.isEmpty then jsSplitTokensGo p cs []
       else String.mk acc.reverse :: jsSplitTokensGo p cs [])
    else jsSplitTokensGo p cs (c :: acc)

/-- JS `s.split(/d+/).filter(p => p.length)` for a delimiter class `d`:
the maximal runs of non-delimiter characters, empties dropped.  This is the
combination used by the ASCII data parser and by `sanitizeMnemonic`. -/
def jsSplitTokens (p : Char → Bool) (s : String) : List String :=
  jsSplitTokensGo p s.toList []

/-- Decimal value of a digit list (most significant first). -/
def digitsVal (ds : List Char) : ℕ :=
  ds.foldl (fun a c => a * 10 + (c.toNat - 48)) 0

/-- A finite JS number, as an explicit fraction `num / den` over `ℤ`.  Every
construction below keeps `den > 0`; the fraction is not reduced (no gcd), so
that all arithmetic evaluates inside the Lean kernel.  Value equality (the
JS `===`) is `JsNum.eqv`; structural equality only appears where both sides
are produced by the same computation. -/
structure JsNum where
  num : ℤ
  den : ℤ
deriving DecidableEq, Repr

instance (n : ℕ) : OfNat JsNum n :=
  ⟨⟨n, 1⟩⟩

instance : NatCast JsNum :=
  ⟨fun n => ⟨n, 1⟩⟩

instance : Neg JsNum :=
  ⟨fun a => ⟨-a.num, a.den⟩⟩

instance : Add JsNum :=
  ⟨fun a b => ⟨a.num * b.den + b.num * a.den, a.den * b.den⟩⟩

instance : Sub JsNum :=
  ⟨fun a b => ⟨a.num * b.den - b.num * a.den, a.den * b.den⟩⟩

instance : Mul JsNum :=
  ⟨fun a b => ⟨a.num * b.num, a.den * b.den⟩⟩

/-- Division; the sign moves into the numerator so that `den` stays
positive.  Dividing by a zero value leaves `den = 0` (JS would produce an
infinity or `NaN`); every division in the model is guarded exactly where
the source guards it. -/
instance : Div JsNum :=
  ⟨fun a b =>
    let n := a.num * b.den
    let d := a.den * b.num
    if d < 0 then ⟨-n, -d⟩ else ⟨n, d⟩⟩

/-- JS `===` on two number values. -/
def JsNum.eqv (a b : JsNum) : Bool :=
  a.num * b.den == b.num * a.den

/-- JS `<` on two number values (both `den > 0`). -/
def JsNum.ltv (a b : JsNum) : Bool :=
  a.num * b.den < b.num * a.den

/-- JS `x < 0`. -/
def JsNum.isNeg (a : JsNum) : Bool :=
  a.num < 0

/-- JS `Math.max` on two finite numbers. -/
def JsNum.maxv (a b : JsNum) : JsNum :=
  if a.ltv b then b else a

/-- The magnitude `|a|`. -/
def JsNum.absv (a : JsNum) : JsNum :=
  ⟨|a.num|, a.den⟩

/-- `⌊a⌋` (`den > 0`). -/
def JsNum.floorv (a : JsNum) : ℤ :=
  a.num.fdiv a.den

/-- `10 ^ k` as a JS number. -/
def pow10 (k : ℕ) : JsNum :=
  ⟨10 ^ k, 1⟩

/-- `10 ^ e` for a signed exponent. -/
def pow10Z (e : ℤ) : JsNum :=
  if 0 ≤ e then ⟨10 ^ e.toNat, 1⟩ else ⟨1, 10 ^ (-e).toNat⟩

/-- Squaring, used to spell `2 ^ 1024` with logarithmic reduction depth. -/
def sqInt (x : ℤ) : ℤ :=
  x * x

/-- `2 ^ 1024 = 2 ^ (2 ^ 10)`, by ten squarings. -/
def jsOverflowBound : ℤ :=
  sqInt (sqInt (sqInt (sqInt (sqInt (sqInt (sqInt (sqInt (sqInt (sqInt 2)))))))))

/-- Finiteness guard for a parsed numeric literal, mirroring the JS
`Number.isFinite` checks that follow `parseFloat`/`Number` in the source:
a literal whose exact value reaches `2^1024` overflows to `Infinity` in JS.
(The exact double rounding at the boundary is not modelled.) -/
def jsFinite (q : JsNum) : Bool :=
  |q.num| < jsOverflowBound * q.den

/-- JS `parseFloat`, returning `none` for `NaN`.  Semantics of the original:
skip leading whitespace, then the longest prefix of the form
`[+-]? digits ("." digits?)? ([eE][+-]?digits)?` (at least one digit before
or after the dot); trailing garbage is ignored; no valid prefix gives `NaN`.
The literals `Infinity`/`-Infinity` are modelled as `none` as well: every
call site of the source immediately maps a non-finite result to the same
outcome as `NaN`. -/
def parseFloatJs (s : String) : Option JsNum :=
  let cs := s.toList.dropWhile jsIsWs
  let (neg, cs1) : Bool × List Char :=
    match cs with
    | '+' :: t => (false, t)
    | '-' :: t => (true, t)
    | _ => (false, cs)
  let intDs := cs1.takeWhile Char.isDigit
  let cs2 := cs1.dropWhile Char.isDigit
  let (fracDs, cs3) : List Char × List Char :=
    match cs2 with
    | '.' :: t => (t.takeWhile Char.isDigit, t.dropWhile Char.isDigit)
    | _ => ([], cs2)
  if intDs.isEmpty && fracDs.isEmpty then none
  else
    let mant : JsNum := (digitsVal intDs : JsNum) + (digitsVal fracDs : JsNum) / pow10 fracDs.length
    let e : ℤ :=
      match cs3 with
      | c :: t =>
        if c = 'e' || c = 'E' then
          let (esign, t1) : ℤ × List Char :=
            match t with
            | '+' :: u => (1, u)
            | '-' :: u => (-1, u)
            | _ => (1, t)
          let eDs := t1.takeWhile Char.isDigit
          if eDs.isEmpty then 0 else esign * (digitsVal eDs : ℤ)
        else 0
      | [] => 0
    let v := mant * pow10Z e
    some (if neg then -v else v)

/-- Least `k` with `q * 10^k` integral, searched up to the double range
(enough for every value `parseFloatJs` can produce).  Divisibility of
`num * 10^k` by `den` does not depend on the chosen fraction
representation. -/
def decExpOf (q : JsNum) : Option ℕ :=
  (List.range 1100).find? (fun k => q.num * 10 ^ k % q.den == 0)

/-- The last `p` decimal digits of `n`, as a string of length `p`
(leading zeros kept). -/
def fracDigitsStr (n : ℕ) (p : ℕ) : String :=
  String.mk ((List.range p).map (fun j => Char.ofNat (48 + n / 10 ^ (p - 1 - j) % 10)))

/-- JS `Number.prototype.toFixed(p)` on the model.  ECMA semantics: take the
sign apart, round `|q| * 10^p` to the nearest integer (ties toward the
larger integer), and print with `p` digits after the point (no point for
`p = 0`).  A negative value that rounds to zero keeps its minus sign, as in
JS. -/
def jsToFixed (q : JsNum) (p : ℕ) : String :=
  let s := if q.isNeg then "-" else ""
  let n : ℕ := ((q.absv * pow10 p + JsNum.mk 1 2).floorv).toNat
  s ++ (if p = 0 then Nat.repr n else Nat.repr (n / 10 ^ p) ++ "." ++ fracDigitsStr n p)

/-- JS `String(v)` for a finite number.  JS prints the shortest decimal that
round-trips through the double; on this model every value reaching the
writer is produced by a decimal parse, so it has an exact finite decimal
form with that property, and it is printed exactly.  (The JS switch to
exponential notation for magnitudes `>= 1e21` or `< 1e-6` is not modelled;
both forms reparse to the same value.)  A value with no finite decimal form
cannot arise from parsing; for totality it is printed with 20 fixed
digits. -/
def numToString (q : JsNum) : String :=
  if q.num = 0 then "0"
  else
    let s := if q.isNeg then "-" else ""
    let a := q.absv
    match decExpOf a with
    | some k =>
      let n := ((a.num * 10 ^ k).fdiv a.den).toNat
      s ++ (if k = 0 then Nat.repr n else Nat.repr (n / 10 ^ k) ++ "." ++ fracDigitsStr n k)
    | none => s ++ jsToFixed a 20

/-- One cell of a data row or of a curve's `data` array: a JS number
(finite, `NaN`, or an infinity), JS `null`, or an array hole/`undefined`. -/
inductive Cell where
  | num (q : JsNum)
  | nan
  | inf
  | ninf
  | null
  | undef
deriving DecidableEq, Repr

/-- The test `v == null || !Number.isFinite(v)` of the source applied to a
cell: true unless the cell is a finite number.  (`==` is the loose JS
equality, true for both `null` and `undefined`.) -/
def cellNullish (c : Cell) : Bool :=
  match c with
  | .num _ => false
  | _ => true

/-- A curve record of `lasio.js`: `{ mnemonic, unit, api, code, description,
rawLine, data }`. -/
structure Curve where
  mnemonic : String
  unit : String
  api : String
  code : String
  description : String
  rawLine : String
  data : List Cell
deriving DecidableEq, Repr

/-- A parsed key-value item of a `~V`/`~W`/`~P` section:
`{ mnemonic, unit, valueRaw, desc, rawLine }`. -/
structure KvItem where
  mnemonic : String
  unit : String
  valueRaw : String
  desc : String
  rawLine : String
deriving DecidableEq, Repr

/-- A raw section as stored in `las.sections`: name (upper-cased), original
header line, original body lines, and the key-value items parsed into it. -/
structure RawSection where
  name : String
  headerLine : String
  lines : List String
  items : List KvItem
deriving DecidableEq, Repr

/-- The document object built by `readLAS`.  `rows` is `las.data.rows`;
`well`/`params` are the JS `Map`s keyed by the upper-cased mnemonic;
`lineEnding` is `las.meta.lineEnding`. -/
structure Las where
  version : String
  wrap : String
  delimiter : Option String
  nullValue : Option JsNum
  sections : List RawSection
  well : List (String × KvItem)
  params : List (String × KvItem)
  other : List String
  curves : List Curve
  rows : List (List Cell)
  lineEnding : String
deriving DecidableEq, Repr

/-- Options object of `writeLAS`. -/
structure WriteOpts where
  delimiter : Option String
  precision : Option ℕ
  lineEnding : Option String
deriving DecidableEq, Repr

/-- `writeLAS(las)` without options. -/
def writeOptsDefault : WriteOpts :=
  ⟨none, none, none⟩

/-- JS `stripComment` of `lasio.js`: a line whose first non-space character is
`#` becomes empty; otherwise everything from the first `#` on is dropped. -/
def stripComment (line : String) : String :=
  let cs := line.toList
  match cs.findIdx? (· = '#') with
  | none => line
  | some i =>
    if (cs.dropWhile jsIsWs).head? = some '#' then ""
    else String.mk (cs.take i)

/-- The `maxLen` helper of the source: maximum of a list of lengths, 0 for
the empty list. -/
def maxLen (arr : List ℕ) : ℕ :=
  arr.foldl (fun m x => if x > m then x else m) 0

/-- JS `Map.prototype.get` on an association list. -/
def mapGet (m : List (String × KvItem)) (k : String) : Option KvItem :=
  (m.find? (fun p => p.1 = k)).map Prod.snd

/-- JS `Map.prototype.set` on an association list: replace an existing key,
else append. -/
def mapSet (m : List (String × KvItem)) (k : String) (v : KvItem) : List (String × KvItem) :=
  if m.any (fun p => p.1 = k) then m.map (fun p => if p.1 = k then (k, v) else p)
  else m ++ [(k, v)]

/-- JS `las.sections.get(name)`: the JS `Map` is filled by `set` in section
order, so a duplicated section name resolves to the last section with that
name. -/
def getSection (secs : List RawSection) (name : String) : Option RawSection :=
  (secs.filter (fun s => s.name = name)).getLast?

/-- Store parsed key-value items into the section `getSection` resolves
(mirrors the in-place mutation `sec.items = items` of the source). -/
def setSectionItems (secs : List RawSection) (name : String) (items : List KvItem) : List RawSection :=
  match secs.reverse.findIdx? (fun s => s.name = name) with
  | none => secs
  | some j =>
    let i := secs.length - 1 - j
    secs.mapIdx (fun k s => if k = i then ⟨s.name, s.headerLine, s.lines, items⟩ else s)

/-- A word character of the section-header pattern `[A-Za-z0-9_]`. -/
def isWordChar (c : Char) : Bool :=
  c.isAlphanum || c = '_'

/-- Translation of the section-header test
`line.match(/^\s*~\s*([A-Za-z0-9_]+)\b(.*)$/)`: upper-cased section name, or
`none` when the line opens no section.  The `\b(.*)$` tail matches whenever
the name group is non-empty, so only the name matters. -/
def sectionNameOf (line : String) : Option String :=
  match line.toList.dropWhile jsIsWs with
  | '~' :: rest =>
    let name := (rest.dropWhile jsIsWs).takeWhile isWordChar
    if name.isEmpty then none else some (jsToUpper (String.mk name))
  | _ => none

/-- First pass of `readLAS`: split the line list into sections; lines before
the first header form a synthetic `PRE` section. -/
def splitSections (lines : List String) : List RawSection :=
  let step := fun (st : List RawSection × Option RawSection) (line : String) =>
    let (done, cur) := st
    match sectionNameOf line with
    | some name =>
      (match cur with
       | some s => (done ++ [s], some ⟨name, line, [], []⟩)
       | none => (done, some ⟨name, line, [], []⟩))
    | none =>
      match cur with
      | some s => (done, some ⟨s.name, s.headerLine, s.lines ++ [line], []⟩)
      | none => (done, some ⟨"PRE", "", [line], []⟩)
  let (done, cur) := lines.foldl step ([], none)
  match cur with
  | some s => done ++ [s]
  | none => done

/-- Translation of the key-value line pattern
`/^\s*([^.\s]+)\s*\.\s*([^ \t]*)\s+([^:]*)?(?::\s*(.*))?$/` with its exact
backtracking semantics, returning the raw captures `(m1, m2, m3, m4)`
(absent captures as `""`).  After the dot the greedy `\s*` takes the
whitespace and the unit takes the following non-whitespace run; if the run
reaches the end of the line the engine backtracks, `\s*` yields a character
to the mandatory `\s+`, the unit capture ends up empty and `[^:]*` takes the
run.  A line with no whitespace after the dot (or no dot, or no mnemonic)
does not match. -/
def kvCaptures (line : String) : Option (String × String × String × String) :=
  let cs := line.toList.dropWhile jsIsWs
  let mnem := cs.takeWhile (fun c => !jsIsWs c && c ≠ '.')
  if mnem.isEmpty then none
  else
    match (cs.drop mnem.length).dropWhile jsIsWs with
    | '.' :: r =>
      let a := r.takeWhile jsIsWs
      let b := r.dropWhile jsIsWs
      let u := b.takeWhile (fun c => !jsIsWs c)
      let afterU := b.drop u.length
      if !afterU.isEmpty then
        let afterWs := afterU.dropWhile jsIsWs
        let value := afterWs.takeWhile (fun c => c ≠ ':')
        let r2 := afterWs.drop value.length
        let desc := match r2 with | ':' :: d => d.dropWhile jsIsWs | _ => ([] : List Char)
        some (String.mk mnem, String.mk u, String.mk value, String.mk desc)
      else if !a.isEmpty then
        let value := b.takeWhile (fun c => c ≠ ':')
        let r2 := b.drop value.length
        let desc := match r2 with | ':' :: d => d.dropWhile jsIsWs | _ => ([] : List Char)
        some (String.mk mnem, "", String.mk value, String.mk desc)
      else none
    | _ => none

/-- Translation of the curve-info line pattern
`/^\s*([^.\s]+)\s*\.\s*([^ \t]*)\s*(.*?)\s*(?::\s*(.*))?$/`: after the dot
the unit is the first non-whitespace run (it may contain `:`); the lazy
middle group then ends just before the whitespace that precedes the first
colon of the remainder (or at the trailing-whitespace boundary when no colon
follows). -/
def curveCaptures (line : String) : Option (String × String × String × String) :=
  let cs := line.toList.dropWhile jsIsWs
  let mnem := cs.takeWhile (fun c => !jsIsWs c && c ≠ '.')
  if mnem.isEmpty then none
  else
    match (cs.drop mnem.length).dropWhile jsIsWs with
    | '.' :: r =>
      let b := r.dropWhile jsIsWs
      let u := b.takeWhile (fun c => !jsIsWs c)
      let t := (b.drop u.length).dropWhile jsIsWs
      match t.findIdx? (· = ':') with
      | some j =>
        let middle := ((t.take j).reverse.dropWhile jsIsWs).reverse
        let desc := (t.drop (j + 1)).dropWhile jsIsWs
        some (String.mk mnem, String.mk u, String.mk middle, String.mk desc)
      | none =>
        let middle := (t.reverse.dropWhile jsIsWs).reverse
        some (String.mk mnem, String.mk u, String.mk middle, "")
    | _ => none

/-- `parseKeyValueSection(las, shortName, sec)` of `lasio.js`: collect items,
fill the `well`/`params` maps, and for the version section update `version`,
`wrap` and the raw `delimiter` (empty captured values are falsy in JS and
keep the previous field). -/
def parseKeyValueSection (las : Las) (shortName : String) (sec : Option RawSection) : Las :=
  match sec with
  | none => las
  | some s =>
    let step := fun (st : Las × List KvItem) (raw : String) =>
      let (l, items) := st
      let line := jsTrimEnd (stripComment raw)
      if jsTrim line = "" then (l, items)
      else
        match kvCaptures line with
        | none => (l, items)
        | some (m1, m2, m3, m4) =>
          let mnemonic := jsTrim m1
          let unit := jsTrim m2
          let valueRaw := jsTrim m3
          let desc := jsTrim m4
          let item : KvItem := ⟨mnemonic, unit, valueRaw, desc, raw⟩
          let l1 := if shortName = "W" then { l with well := mapSet l.well (jsToUpper mnemonic) item } else l
          let l2 := if shortName = "P" then { l1 with params := mapSet l1.params (jsToUpper mnemonic) item } else l1
          let l3 :=
            if shortName = "V" then
              let key := jsToUpper mnemonic
              let lA := if key = "VERS" then { l2 with version := if valueRaw = "" then l2.version else valueRaw } else l2
              let lB := if key = "WRAP" then { lA with wrap := jsToUpper (if valueRaw = "" then lA.wrap else valueRaw) } else lA
              if key = "DLM" || key = "DLM " then { lB with delimiter := if valueRaw = "" then lB.delimiter else some valueRaw } else lB
            else l2
          (l3, items ++ [item])
    let (l, items) := s.lines.foldl step (las, [])
    { l with sections := setSectionItems l.sections s.name items }

/-- `parseCurveInfoSection` of `lasio.js`: build the curve list in file
order; the middle capture is split on whitespace into `api` and the
space-joined `code`. -/
def parseCurveInfoSection (las : Las) (sec : Option RawSection) : Las :=
  match sec with
  | none => las
  | some s =>
    let step := fun (curves : List Curve) (raw : String) =>
      let line := jsTrimEnd (stripComment raw)
      if jsTrim line = "" then curves
      else
        match curveCaptures line with
        | none => curves
        | some (m1, m2, m3, m4) =>
          let mnemonic := jsTrim m1
          let unit := jsTrim m2
          let middle := jsTrim m3
          let desc := jsTrim m4
          let parts := jsSplitTokens jsIsWs middle
          let api := if parts.length ≥ 1 then parts.headD "" else ""
          let code := if parts.length ≥ 2 then String.intercalate " " (parts.drop 1) else ""
          curves ++ [⟨mnemonic, unit, api, code, desc, raw, []⟩]
    { las with curves := s.lines.foldl step [] }

/-- `parseOtherSection` of `lasio.js`. -/
def parseOtherSection (las : Las) (sec : Option RawSection) : Las :=
  match sec with
  | none => las
  | some s => { las with other := s.lines }

/-- `getNullValue` of `lasio.js`: the sentinel is `parseFloat` of the `NULL`
well item's captured *unit* slot (the first token after the dot, which is
where the sentinel of the common `NULL. -999.25 : ...` layout is captured);
a missing item or a non-finite parse keeps the current (unresolved) value.
The fallback key `"NULL "` of the source can never be produced by the
mnemonic capture and is mirrored for fidelity. -/
def getNullValue (las : Las) : Option JsNum :=
  match (mapGet las.well "NULL").orElse (fun _ => mapGet las.well "NULL ") with
  | none => las.nullValue
  | some item =>
    match parseFloatJs item.unit with
    | some q => if jsFinite q then some q else las.nullValue
    | none => las.nullValue

/-- `getDelimiter` of `lasio.js`: the raw `DLM` value of the version section
if it names a known delimiter, else a `DLM` well item, else sniff the first
non-empty data line (comma before tab before space), else `SPACE`. -/
def getDelimiter (las : Las) : String :=
  let known := fun (u : String) => u = "SPACE" || u = "TAB" || u = "COMMA"
  let fromV : Option String :=
    match las.delimiter with
    | some s =>
      if jsTrim s ≠ "" then
        (if known (jsToUpper (jsTrim s)) then some (jsToUpper (jsTrim s)) else none)
      else none
    | none => none
  match fromV with
  | some u => u
  | none =>
    let fromW : Option String :=
      match mapGet las.well "DLM" with
      | some item =>
        if item.valueRaw ≠ "" then
          (if known (jsToUpper (jsTrim item.valueRaw)) then some (jsToUpper (jsTrim item.valueRaw)) else none)
        else none
      | none => none
    match fromW with
    | some u => u
    | none =>
      match (getSection las.sections "A").orElse (fun _ =>
        (getSection las.sections "ASCII").orElse (fun _ => getSection las.sections "DATA")) with
      | some aSec =>
        match aSec.lines.find? (fun l => jsTrim (stripComment l) ≠ "") with
        | some first =>
          if first.toList.contains ',' then "COMMA"
          else if first.toList.contains '\t' then "TAB"
          else "SPACE"
        | none => "SPACE"
      | none => "SPACE"

/-- `parseAsciiData` of `lasio.js`: split each non-empty comment-stripped
line on runs of the resolved delimiter; each token parses to a finite number
or to logical null. -/
def parseAsciiData (las : Las) (sec : RawSection) : Las :=
  let dlm := match las.delimiter with
    | some s => if s = "" then "SPACE" else s
    | none => "SPACE"
  let isDelim : Char → Bool :=
    if dlm = "COMMA" then (fun c => c = ',')
    else if dlm = "TAB" then (fun c => c = '\t')
    else jsIsWs
  let step := fun (rows : List (List Cell)) (raw : String) =>
    let line := jsTrim (stripComment raw)
    if line = "" then rows
    else
      let parts := jsSplitTokens isDelim line
      if parts.isEmpty then rows
      else
        rows ++ [parts.map (fun p =>
          match parseFloatJs p with
          | some v => if jsFinite v then Cell.num v else Cell.null
          | none => Cell.null)]
  { las with rows := sec.lines.foldl step [] }

/-- `convertNullSentinelToNull` of `lasio.js`: with a finite resolved
sentinel, every cell strictly equal to it becomes logical null. -/
def convertNullSentinelToNull (las : Las) : Las :=
  match las.nullValue with
  | none => las
  | some nv =>
    if jsFinite nv then
      { las with rows := las.rows.map (fun row => row.map (fun c =>
          match c with
          | Cell.num v => if v.eqv nv then Cell.null else Cell.num v
          | c => c)) }
    else las

/-- `distributeDataIntoCurves` of `lasio.js`: synthesize positional curves
when none were parsed, reset every curve's data, normalise each row to the
curve count (pad with null / truncate), then fill the column arrays. -/
def distributeDataIntoCurves (las : Las) : Las :=
  let las :=
    if las.curves.length = 0 && las.rows.length ≠ 0 then
      let synth : List Curve := (List.range (las.rows.headD []).length).map
        (fun i => ⟨"CURVE" ++ Nat.repr (i + 1), "", "", "", "", "", []⟩)
      { las with curves := synth }
    else las
  let las := { las with curves := las.curves.map (fun c => { c with data := [] }) }
  if las.rows.length = 0 then las
  else
    let n := las.curves.length
    let rows := las.rows.map (fun row =>
      if row.length < n then row ++ List.replicate (n - row.length) Cell.null
      else row.take n)
    let curves := las.curves.mapIdx (fun ci c =>
      { c with data := rows.map (fun row => row.getD ci Cell.undef) })
    { las with rows := rows, curves := curves }

/-- `normalizeNewlines` of `lasio.js` (`\r\n` then stray `\r` both become
`\n`). -/
def normalizeNewlinesGo : List Char → List Char
  | [] => []
  | '\r' :: '\n' :: t => '\n' :: normalizeNewlinesGo t
  | '\r' :: t => '\n' :: normalizeNewlinesGo t
  | c :: t => c :: normalizeNewlinesGo t

/-- Helper of `detectLineEnding`: does the text contain `\r\n`. -/
def hasCRLF : List Char → Bool
  | '\r' :: '\n' :: _ => true
  | _ :: t => hasCRLF t
  | [] => false

/-- `detectLineEnding` of `lasio.js`. -/
def detectLineEnding (s : String) : String :=
  if hasCRLF s.toList then "\r\n"
  else if s.toList.contains '\r' then "\r"
  else "\n"

/-- JS `String.prototype.split` on a single character, keeping empty
segments. -/
def splitOnCharGo (ch : Char) : List Char → List Char → List String
  | [], acc => [String.mk acc.reverse]
  | c :: cs, acc =>
    if c = ch then String.mk acc.reverse :: splitOnCharGo ch cs []
    else splitOnCharGo ch cs (c :: acc)

/-- The opening statements of `readLAS`: normalise newlines, split into
lines, strip a UTF-8 BOM from the first line, split into sections, and
build the initial document object (`const las = {...}` of the source). -/
def readLASInit (text : String) : Las :=
  let normalized := String.mk (normalizeNewlinesGo text.toList)
  let rawLines0 := splitOnCharGo '\n' normalized.toList []
  let rawLines :=
    match rawLines0 with
    | first :: rest =>
      (match first.toList with
       | '\uFEFF' :: t => String.mk t :: rest
       | _ => first :: rest)
    | [] => []
  { version := "2.0", wrap := "NO", delimiter := none, nullValue := none,
    sections := splitSections rawLines, well := [], params := [], other := [],
    curves := [], rows := [], lineEnding := detectLineEnding text }

/-- `parseKeyValueSection(las, "V", las.sections.get("V") || las.sections.get("VERSION"))`. -/
def readVersionSection (las : Las) : Las :=
  parseKeyValueSection las "V"
    ((getSection las.sections "V").orElse (fun _ => getSection las.sections "VERSION"))

/-- `parseKeyValueSection(las, "W", ...)`. -/
def readWellSection (las : Las) : Las :=
  parseKeyValueSection las "W"
    ((getSection las.sections "W").orElse (fun _ => getSection las.sections "WELL"))

/-- `parseKeyValueSection(las, "P", ...)`. -/
def readParameterSection (las : Las) : Las :=
  parseKeyValueSection las "P"
    ((getSection las.sections "P").orElse (fun _ => getSection las.sections "PARAMETER"))

/-- `parseCurveInfoSection(las, las.sections.get("C") || las.sections.get("CURVE"))`. -/
def readCurveSection (las : Las) : Las :=
  parseCurveInfoSection las
    ((getSection las.sections "C").orElse (fun _ => getSection las.sections "CURVE"))

/-- `parseOtherSection(las, las.sections.get("O") || las.sections.get("OTHER"))`. -/
def readOtherSection (las : Las) : Las :=
  parseOtherSection las
    ((getSection las.sections "O").orElse (fun _ => getSection las.sections "OTHER"))

/-- `las.nullValue = getNullValue(las)`. -/
def resolveNullValue (las : Las) : Las :=
  { las with nullValue := getNullValue las }

/-- `las.delimiter = getDelimiter(las)`. -/
def resolveDelimiter (las : Las) : Las :=
  { las with delimiter := some (getDelimiter las) }

/-- The `~A`/`~ASCII`/`~DATA` lookup and `parseAsciiData` call of `readLAS`. -/
def readAsciiSection (las : Las) : Las :=
  match (getSection las.sections "A").orElse (fun _ =>
    (getSection las.sections "ASCII").orElse (fun _ => getSection las.sections "DATA")) with
  | some aSec => parseAsciiData las aSec
  | none => las

/-- `readLAS` of `lasio.js`: the full load pipeline, composed of the steps
above in source order. -/
def readLAS (text : String) : Las :=
  distributeDataIntoCurves
    (convertNullSentinelToNull
      (readAsciiSection
        (resolveDelimiter
          (resolveNullValue
            (readOtherSection
              (readCurveSection
                (readParameterSection
                  (readWellSection
                    (readVersionSection
                      (readLASInit text))))))))))

/-- `formatNumber` of `lasio.js`: null/undefined/non-finite cells print as
the resolved sentinel (or the literal `NaN` when none is resolved); a finite
value prints with `toFixed` when a precision is configured, and the exact
strings `-0.000`/`-0.00`/`-0.0` lose their minus sign
(`s.replace("-", "")` removes the leading character); without a precision
the value's default text form is printed. -/
def formatNumber (v : Cell) (nullValue : Option JsNum) (precision : Option ℕ) : String :=
  match v with
  | Cell.num q =>
    (match precision with
     | none => numToString q
     | some p =>
       let s := jsToFixed q p
       if s = "-0.000" || s = "-0.00" || s = "-0.0" then String.mk (s.toList.drop 1) else s)
  | _ =>
    match nullValue with
    | some nv => numToString nv
    | none => "NaN"

/-- Fuel-indexed worker for `replaceWsColon`; the fuel is an upper bound on
the input length, and every step consumes at least one character. -/
def replaceWsColonAux : ℕ → List Char → List Char
  | 0, cs => cs
  | _ + 1, [] => []
  | fuel + 1, c :: cs =>
    if jsIsWs c then
      let run := (c :: cs).takeWhile jsIsWs
      let rest := (c :: cs).dropWhile jsIsWs
      match rest with
      | ':' :: r => ' ' :: ':' :: r
      | _ => run ++ replaceWsColonAux fuel rest
    else c :: replaceWsColonAux fuel cs

/-- JS `s.replace(/\s+:/, " :")`: the leftmost whitespace run immediately
followed by a colon collapses, with the colon, to `" :"`. -/
def replaceWsColon (s : String) : String :=
  String.mk (replaceWsColonAux s.length s.toList)

/-- `formatCurveLine` of `lasio.js`. -/
def formatCurveLine (c : Curve) : String :=
  let mn := jsPadEnd c.mnemonic 8
  let un := jsPadEnd c.unit 8
  let api := jsPadEnd c.api 16
  let code := jsPadEnd c.code 16
  replaceWsColon (mn ++ "." ++ un ++ " " ++ api ++ " " ++ code ++ " : " ++ c.description)

/-- `rebuildRowsFromCurves` of `lasio.js`: rebuild the export rows from the
curve arrays alone; a hole or an out-of-range read (`undefined`) becomes
null. -/
def rebuildRowsFromCurves (las : Las) : List (List Cell) :=
  let n := las.curves.length
  if n = 0 then []
  else
    let rowCount := maxLen (las.curves.map (fun c => c.data.length))
    (List.range rowCount).map (fun r =>
      las.curves.map (fun c =>
        match c.data.getD r Cell.undef with
        | Cell.undef => Cell.null
        | v => v))

/-- `rebuildKeyValueLines` of `lasio.js`: keep raw lines, but rewrite the
lines whose mnemonic is one of the tracked keys (`VERS`/`WRAP`/`DLM` for the
version section, `NULL` for the well section) with the current field value,
and append a line for any tracked key with no parsed item. -/
def rebuildKeyValueLines (las : Las) (sec : RawSection) (shortName : String) : List String :=
  if sec.items.isEmpty then sec.lines
  else
    let updates : List (String × String) :=
      (if shortName = "V" then
        [("VERS", las.version), ("WRAP", las.wrap)] ++
          (match las.delimiter with | some d => [("DLM", d)] | none => [])
      else []) ++
      (if shortName = "W" then
        (match las.nullValue with | some nv => [("NULL", numToString nv)] | none => [])
      else [])
    let updLookup := fun (k : String) => (updates.find? (fun p => p.1 = k)).map Prod.snd
    let mainLines := sec.lines.foldl (fun acc raw =>
      let line := jsTrimEnd (stripComment raw)
      match kvCaptures line with
      | none => acc ++ [raw]
      | some (m1, m2, _, m4) =>
        let mnemonic := jsToUpper (jsTrim m1)
        match updLookup mnemonic with
        | none => acc ++ [raw]
        | some newValue =>
          let unit := jsTrim m2
          let desc := jsTrim m4
          acc ++ [jsTrimEnd (mnemonic ++ "." ++ unit ++ "  " ++ newValue ++ " : " ++ desc)]) []
    let extraLines := updates.foldl (fun acc kv =>
      if sec.items.any (fun it => jsToUpper it.mnemonic = kv.1) then acc
      else
        let desc :=
          if kv.1 = "NULL" then "Null value"
          else if kv.1 = "DLM" then "Delimiter"
          else if kv.1 = "WRAP" then "One line per depth step"
          else if kv.1 = "VERS" then "LAS version"
          else ""
        acc ++ [jsTrimEnd (kv.1 ++ ".  " ++ kv.2 ++ " : " ++ desc)]) []
    mainLines ++ extraLines

/-- `writeLAS` of `lasio.js`: serialize the document; the curve-info and
ASCII sections are always regenerated from `las.curves`. -/
def writeLAS (las : Las) (opts : WriteOpts) : String :=
  let lineEnding :=
    match opts.lineEnding with
    | some s => if s ≠ "" then s else (if las.lineEnding ≠ "" then las.lineEnding else "\n")
    | none => if las.lineEnding ≠ "" then las.lineEnding else "\n"
  let vLines : List String :=
    match (getSection las.sections "V").orElse (fun _ => getSection las.sections "VERSION") with
    | some vSec =>
      [if vSec.headerLine = "" then "~Version" else vSec.headerLine] ++
        rebuildKeyValueLines las vSec "V"
    | none =>
      ["~Version", "VERS.  " ++ las.version ++ " : LAS version",
        "WRAP.  " ++ las.wrap ++ " : One line per depth step"] ++
        (match las.delimiter with
         | some d => if d ≠ "" then ["DLM .  " ++ d ++ " : Delimiter"] else []
         | none => [])
  let wLines : List String :=
    match (getSection las.sections "W").orElse (fun _ => getSection las.sections "WELL") with
    | some wSec =>
      [if wSec.headerLine = "" then "~Well" else wSec.headerLine] ++
        rebuildKeyValueLines las wSec "W"
    | none =>
      ["~Well"] ++
        (match las.nullValue with
         | some nv => ["NULL.  " ++ numToString nv ++ " : Null value"]
         | none => [])
  let cLines : List String :=
    ["~Curve Information", "#MNEM.UNIT         API CODE           : CURVE DESCRIPTION"] ++
      las.curves.map formatCurveLine
  let pLines : List String :=
    match (getSection las.sections "P").orElse (fun _ => getSection las.sections "PARAMETER") with
    | some pSec =>
      [if pSec.headerLine = "" then "~Parameter" else pSec.headerLine] ++
        rebuildKeyValueLines las pSec "P"
    | none => []
  let oSec := (getSection las.sections "O").orElse (fun _ => getSection las.sections "OTHER")
  let oLines : List String :=
    if oSec.isSome || las.other ≠ [] then
      ["~Other"] ++ (if las.other ≠ [] then las.other else (oSec.map RawSection.lines).getD [])
    else []
  let dlm :=
    match opts.delimiter with
    | some s =>
      if s ≠ "" then s
      else
        (match las.delimiter with
         | some d => if d ≠ "" then d else "SPACE"
         | none => "SPACE")
    | none =>
      match las.delimiter with
      | some d => if d ≠ "" then d else "SPACE"
      | none => "SPACE"
  let delimChar := if dlm = "COMMA" then "," else if dlm = "TAB" then "\t" else " "
  let rows := rebuildRowsFromCurves las
  let aLines : List String :=
    ["~ASCII"] ++ rows.map (fun row =>
      jsTrimEnd (String.intercalate delimChar
        (row.map (fun v => formatNumber v las.nullValue opts.precision))))
  String.intercalate lineEnding (vLines ++ wLines ++ cLines ++ pLines ++ oLines ++ aLines) ++
    lineEnding

instance : Inhabited Curve :=
  ⟨⟨"", "", "", "", "", "", []⟩⟩

/-- `findCurveIdx` of `curveEditor.js`: first case-insensitive match. -/
def findCurveIdx (las : Las) (mnemonic : String) : Option ℕ :=
  las.curves.findIdx? (fun c => jsToUpper c.mnemonic = jsToUpper mnemonic)

/-- `isProtected` of `curveEditor.js`/`curveRenameDeleteUI.js`. -/
def isProtected (mnemonic : String) (protectedMnemonics : List String) : Bool :=
  protectedMnemonics.any (fun p => jsToUpper p = jsToUpper mnemonic)

/-- `sanitizeMnemonic`: trim, upper-case, turn whitespace runs into single
underscores, and strip every character outside `[A-Z0-9_]`. -/
def sanitizeMnemonic (s : String) : String :=
  let t := jsToUpper (jsTrim s)
  let underscored := String.intercalate "_" (jsSplitTokens jsIsWs t)
  String.mk (underscored.toList.filter (fun c => ('A' ≤ c && c ≤ 'Z') || c.isDigit || c = '_'))

/-- `renameCurve` of `curveEditor.js`/`curveRenameDeleteUI.js`: set the
mnemonic of the first case-insensitive match; `none` models the
`Curve not found` throw (which happens before any mutation). -/
def renameCurve (las : Las) (oldMnemonic newMnemonic : String) : Option Las :=
  match findCurveIdx las oldMnemonic with
  | none => none
  | some idx =>
    let curves : List Curve := las.curves.mapIdx
      (fun j (c : Curve) => if j = idx then { c with mnemonic := newMnemonic } else c)
    some { las with curves := curves }

/-- `deleteCurve` of `curveEditor.js`/`curveRenameDeleteUI.js`: no-op when
the mnemonic matches no curve; otherwise remove the curve and remove index
`idx` from every row long enough to contain it.  (The source skips the row
loop when there are no rows; mapping the empty list is the same.) -/
def deleteCurve (las : Las) (mnemonic : String) : Las :=
  match findCurveIdx las mnemonic with
  | none => las
  | some idx =>
    let curves := las.curves.eraseIdx idx
    let rows := las.rows.map (fun row => if idx < row.length then row.eraseIdx idx else row)
    { las with curves := curves, rows := rows }

/-- The four operators accepted by `parseOperatorExpr`. -/
inductive ArithOp where
  | add
  | sub
  | mul
  | div
deriving DecidableEq, Repr

/-- The operator character, as interpolated into derived descriptions. -/
def opText (op : ArithOp) : String :=
  match op with
  | .add => "+"
  | .sub => "-"
  | .mul => "*"
  | .div => "/"

/-- `applyOp` of `curveEditor.js`.  (Division by a zero value leaves a
zero-denominator fraction where JS yields an infinity or `NaN`; it is
unreachable through `parseOperatorExpr`, which rejects a zero divisor.) -/
def applyOp (v : JsNum) (op : ArithOp) (k : JsNum) : JsNum :=
  match op with
  | .add => v + k
  | .sub => v - k
  | .mul => v * k
  | .div => v / k

/-- The parsed `{ op, k }` object of `parseOperatorExpr`. -/
structure OpExpr where
  op : ArithOp
  k : JsNum
deriving DecidableEq, Repr

/-- The three throw sites of `parseOperatorExpr`: the spec's error taxonomy
names all of them `InvalidOperand`. -/
inductive OpParseError where
  | invalidOperator
  | invalidNumber
  | divisionByZero
deriving DecidableEq, Repr

/-- Full-string match of the operand pattern
`[0-9]*\.?[0-9]+(?:e[+\-]?[0-9]+)?` (case-insensitive `e`): digits with an
optional fraction (a dot requires at least one digit after it) and an
optional exponent; the whole input must be consumed. -/
def numLitMatch (cs : List Char) : Option JsNum :=
  let ds1 := cs.takeWhile Char.isDigit
  let r1 := cs.dropWhile Char.isDigit
  let (dotted, ds2, r2) : Bool × List Char × List Char :=
    match r1 with
    | '.' :: t => (true, t.takeWhile Char.isDigit, t.dropWhile Char.isDigit)
    | _ => (false, [], r1)
  if dotted && ds2.isEmpty then none
  else if !dotted && ds1.isEmpty then none
  else
    let mant : JsNum := (digitsVal ds1 : JsNum) + (digitsVal ds2 : JsNum) / pow10 ds2.length
    match r2 with
    | [] => some mant
    | c :: t =>
      if c = 'e' || c = 'E' then
        let (esign, t1) : ℤ × List Char :=
          match t with
          | '+' :: u => (1, u)
          | '-' :: u => (-1, u)
          | _ => (1, t)
        let eds := t1.takeWhile Char.isDigit
        let rest := t1.dropWhile Char.isDigit
        if eds.isEmpty || !rest.isEmpty then none
        else some (mant * pow10Z (esign * (digitsVal eds : ℤ)))
      else none

/-- `parseOperatorExpr` of `curveEditor.js`: strip all whitespace, turn a
leading `x`/`X` into `*`, then match
`/^([+\-*/])([0-9]*\.?[0-9]+(?:e[+\-]?[0-9]+)?)$/i`; reject a non-finite
operand and a zero divisor. -/
def parseOperatorExpr (s : String) : Except OpParseError OpExpr :=
  let t0 := s.toList.filter (fun c => !jsIsWs c)
  let t :=
    match t0 with
    | c :: rest => if c = 'x' || c = 'X' then '*' :: rest else t0
    | [] => t0
  match t with
  | [] => .error .invalidOperator
  | c :: rest =>
    let opc : Option ArithOp :=
      if c = '+' then some .add
      else if c = '-' then some .sub
      else if c = '*' then some .mul
      else if c = '/' then some .div
      else none
    match opc with
    | none => .error .invalidOperator
    | some op =>
      match numLitMatch rest with
      | none => .error .invalidOperator
      | some k =>
        if !jsFinite k then .error .invalidNumber
        else if op = .div && k.eqv 0 then .error .divisionByZero
        else .ok ⟨op, k⟩

/-- The elementwise loop of `addDerivedCurveNamed`: a null, hole or
non-finite source cell maps to null; a finite source cell maps through
`applyOp`. -/
def deriveData (srcData : List Cell) (op : ArithOp) (k : JsNum) : List Cell :=
  srcData.map (fun v =>
    match v with
    | Cell.num q => Cell.num (applyOp q op k)
    | _ => Cell.null)

/-- `ensureRowsFromCurves` of `curveEditor.js`: resize the row list to the
longest curve, resize every row to the curve count (JS extends with holes),
and fill only the cells that are still holes from the curve arrays
(`curves[c].data?.[r] ?? null`, so a hole or a null in the curve array fills
as null); assigned cells, null included, are never overwritten. -/
def ensureRowsFromCurves (las : Las) : Las :=
  let curves := las.curves
  let nCurves := curves.length
  let rowCount := maxLen (curves.map (fun c => c.data.length))
  let rows := (List.range rowCount).map (fun r =>
    let row0 :=
      match las.rows.get? r with
      | some row => row.take nCurves ++ List.replicate (nCurves - row.length) Cell.undef
      | none => List.replicate nCurves Cell.undef
    List.zipWith (fun cell curve =>
      if cell = Cell.undef then
        match curve.data.getD r Cell.undef with
        | Cell.undef => Cell.null
        | Cell.null => Cell.null
        | v => v
      else cell) row0 curves)
  { las with rows := rows }

/-- `addDerivedCurveNamed` of `curveEditor.js`: compute the derived column,
create the destination curve (appended) or overwrite its data in place,
resynchronise the rows and write the destination column into every row. -/
def addDerivedCurveNamed (las : Las) (sourceMnemonic outMnemonic : String) (oe : OpExpr) :
    Option Las :=
  match findCurveIdx las sourceMnemonic with
  | none => none
  | some srcIdx =>
    let src := las.curves.getD srcIdx default
    let dstData := deriveData src.data oe.op oe.k
    let described := "Derived from " ++ src.mnemonic ++ " by " ++ opText oe.op ++ numToString oe.k
    let created :=
      match findCurveIdx las outMnemonic with
      | none =>
        let c : Curve := ⟨outMnemonic, src.unit, src.api, src.code, described, "", dstData⟩
        ({ las with curves := las.curves ++ [c] }, las.curves.length)
      | some dstIdx =>
        let curves : List Curve := las.curves.mapIdx (fun j (c : Curve) =>
          if j = dstIdx then
            let u := if c.unit = "" then src.unit else c.unit
            { c with data := dstData, unit := u, description := described }
          else c)
        ({ las with curves := curves }, dstIdx)
    let las2 := ensureRowsFromCurves created.1
    let rows := las2.rows.mapIdx (fun r row =>
      row.set created.2 (if r < dstData.length then dstData.getD r Cell.undef else Cell.null))
    some { las2 with rows := rows }

/-- JS arithmetic coercion of a cell, as applied to `rData[i]` in the
water-saturation formula: `null` coerces to `0`; the remaining cases would
propagate `NaN` in JS and are unreachable (`rData` aliases the density data
and the formula only runs when the density cell is a finite number). -/
def cellArith (c : Cell) : JsNum :=
  match c with
  | Cell.num q => q
  | _ => 0

/-- The elementwise loop of `createPetroCurve` over the density data `dData`
and resistivity data `rData`: for a finite density value the porosity is
`100*(pma-v)/(pma-pf)` and the water saturation is
`100 * (rw / (max(dphi/100, cutoff/100)**m * rData[i])) ** (1/n)`; for a
null/hole/non-finite density cell the porosity cell is set to null and the
`continue` skips the saturation assignment, leaving an array hole. -/
def petroArrays (jsPow : JsNum → JsNum → JsNum) (pma pf n m rw cutoff : JsNum) (dData rData : List Cell) :
    List Cell × List Cell :=
  let dphiData := dData.map (fun v =>
    match v with
    | Cell.num q => Cell.num (100 * (pma - q) / (pma - pf))
    | _ => Cell.null)
  let swData := (List.range dData.length).map (fun i =>
    match dData.getD i Cell.undef with
    | Cell.num q =>
      let dphi := 100 * (pma - q) / (pma - pf)
      Cell.num (100 * jsPow (rw / (jsPow (JsNum.maxv (dphi / 100) (cutoff / 100)) m *
        cellArith (rData.getD i Cell.undef))) (1 / n))
    | _ => Cell.undef)
  (dphiData, swData)

/-- `createPetroCurve` of `curveEditor.js`.  The scalar parameters are the
values the source reads from the input widgets, the two mnemonics are the
dropdown selections, and `jsPow` models the JS `**` operator (see the file
header).  Both destination indices are looked up before anything is pushed,
as in the source; a missing density or resistivity curve is the
`Curve not found` throw.  Note `const rData = dSrc.data || []`: the
resistivity input of the formula is read from the density curve's data, the
selected resistivity curve is only required to exist. -/
def createPetroCurve (jsPow : JsNum → JsNum → JsNum) (las : Las)
    (densityMnemonic resistivityMnemonic : String) (pma pf n m rw cutoff : JsNum) : Option Las :=
  match findCurveIdx las densityMnemonic with
  | none => none
  | some dIdx =>
    match findCurveIdx las resistivityMnemonic with
    | none => none
    | some _rIdx =>
      let dSrc := las.curves.getD dIdx default
      let dphiIdx0 := findCurveIdx las "DPHIX"
      let swIdx0 := findCurveIdx las "SWARCH"
      let pair := petroArrays jsPow pma pf n m rw cutoff dSrc.data dSrc.data
      let dphiData := pair.1
      let swData := pair.2
      let createdD :=
        match dphiIdx0 with
        | none =>
          let c : Curve := ⟨"DPHIX", "%", dSrc.api, dSrc.code, "Porosity from bulk density", "", dphiData⟩
          ({ las with curves := las.curves ++ [c] }, las.curves.length)
        | some i =>
          let curves : List Curve := las.curves.mapIdx
            (fun j (c : Curve) => if j = i then { c with data := dphiData } else c)
          ({ las with curves := curves }, i)
      let las2 := ensureRowsFromCurves createdD.1
      let rows3 := las2.rows.mapIdx (fun r row =>
        row.set createdD.2 (if r < dphiData.length then dphiData.getD r Cell.undef else Cell.null))
      let las3 := { las2 with rows := rows3 }
      let createdS :=
        match swIdx0 with
        | none =>
          let c : Curve := ⟨"SWARCH", "%", dSrc.api, dSrc.code, "Porosity from bulk density", "", swData⟩
          ({ las3 with curves := las3.curves ++ [c] }, las3.curves.length)
        | some i =>
          let curves : List Curve := las3.curves.mapIdx
            (fun j (c : Curve) => if j = i then { c with data := swData } else c)
          ({ las3 with curves := curves }, i)
      let las5 := ensureRowsFromCurves createdS.1
      let rows6 := las5.rows.mapIdx (fun r row =>
        row.set createdS.2 (if r < swData.length then swData.getD r Cell.undef else Cell.null))
      some { las5 with rows := rows6 }

/-- Errors surfaced by the editor flows: `alert` refusals and
`Curve not found` throws, plus the `parseOperatorExpr` throws. -/
inductive EditError where
  | protectedErr (m : String)
  | invalidName
  | collision (m : String)
  | notFound (m : String)
  | opError (e : OpParseError)
deriving DecidableEq, Repr

/-- Default protected set of `bindCurveEditor` (`curveEditor.js`). -/
def protectedMnemonicsEditor : List String :=
  ["DEPT", "DEPTH", "DPHIX"]

/-- Default protected set of `bindRenameDeleteUI` (`curveRenameDeleteUI.js`). -/
def protectedMnemonicsRenameDelete : List String :=
  ["DEPT", "DEPTH"]

/-- The rename-only branch of the `curveApplyEdits` click handler of
`curveEditor.js` (operator empty, name non-empty), with the source's check
order: protected source first, then name sanitisation, then the
case-insensitive no-op, then the collision check, then `renameCurve`. -/
def applyEditsRename (las : Las) (srcMnemonic rawName : String)
    (protectedMnemonics : List String) : Except EditError Las :=
  if isProtected srcMnemonic protectedMnemonics then .error (.protectedErr srcMnemonic)
  else
    let newMnemonic := sanitizeMnemonic rawName
    if newMnemonic = "" then .error .invalidName
    else if jsToUpper newMnemonic = jsToUpper srcMnemonic then .ok las
    else if las.curves.any (fun c => jsToUpper c.mnemonic = jsToUpper newMnemonic) then
      .error (.collision newMnemonic)
    else
      match renameCurve las srcMnemonic newMnemonic with
      | some las' => .ok las'
      | none => .error (.notFound srcMnemonic)

/-- The derive branch of the `curveApplyEdits` click handler of
`curveEditor.js` (operator non-empty): the operator expression is parsed
first, so a parse failure aborts before any name handling or mutation. -/
def applyEditsDerive (las : Las) (srcMnemonic expr rawName : String)
    (protectedMnemonics : List String) : Except EditError Las :=
  match parseOperatorExpr expr with
  | .error e => .error (.opError e)
  | .ok parsed =>
    let outMnemonic := if rawName ≠ "" then sanitizeMnemonic rawName else "NEW_" ++ srcMnemonic
    if outMnemonic = "" then .error .invalidName
    else
      match findCurveIdx las outMnemonic with
      | none =>
        if las.curves.any (fun c => jsToUpper c.mnemonic = jsToUpper outMnemonic) then
          .error (.collision outMnemonic)
        else
          (match addDerivedCurveNamed las srcMnemonic outMnemonic parsed with
           | some las' => .ok las'
           | none => .error (.notFound srcMnemonic))
      | some i =>
        if isProtected (las.curves.getD i default).mnemonic protectedMnemonics then
          .error (.protectedErr (las.curves.getD i default).mnemonic)
        else
          (match addDerivedCurveNamed las srcMnemonic outMnemonic parsed with
           | some las' => .ok las'
           | none => .error (.notFound srcMnemonic))

/-- The `deleteCurveBtn` click handler of `curveRenameDeleteUI.js`, with the
confirmation dialog accepted: a protected mnemonic is refused before the
lookup, otherwise `deleteCurve` runs (a no-op when nothing matches). -/
def deleteBtnFlow (las : Las) (mnemonic : String) (protectedMnemonics : List String) :
    Except EditError Las :=
  if isProtected mnemonic protectedMnemonics then .error (.protectedErr mnemonic)
  else .ok (deleteCurve las mnemonic)

/-- The column-alignment invariant: every row of the row-major table has
exactly one cell per curve. -/
def rowsAligned (las : Las) : Prop :=
  ∀ row ∈ las.rows, row.length = las.curves.length

/-- Case-insensitive uniqueness of the curve mnemonics. -/
def mnemsUnique (las : Las) : Prop :=
  (las.curves.map (fun c => jsToUpper c.mnemonic)).Nodup

/-- One mutation of the curve engine, for stating invariants over arbitrary
operation sequences. -/
inductive EditOp where
  | rename (oldMnemonic newMnemonic : String)
  | delete (mnemonic : String)
  | derive (sourceMnemonic outMnemonic : String) (oe : OpExpr)
  | petro (jsPow : JsNum → JsNum → JsNum) (densityMnemonic resistivityMnemonic : String)
      (pma pf n m rw cutoff : JsNum)

/-- Apply one mutation; a thrown JS exception leaves the document unchanged
(each operation throws, if at all, before mutating). -/
def applyEditOp (las : Las) (op : EditOp) : Las :=
  match op with
  | .rename o nw => (renameCurve las o nw).getD las
  | .delete mn => deleteCurve las mn
  | .derive s o oe => (addDerivedCurveNamed las s o oe).getD las
  | .petro p dM rM pma pf n m rw cutoff =>
    (createPetroCurve p las dM rM pma pf n m rw cutoff).getD las

/-- Apply a sequence of mutations. -/
def applyEditOps (las : Las) (ops : List EditOp) : Las :=
  ops.foldl applyEditOp las

deriving instance DecidableEq for Except

/-- Example LAS text exercising the round-trip: a curve-info line `DEPT.`
with an empty unit (and empty api/code/description). -/
def exC2text : String :=
  "~C\nDEPT.\n~A\n1\n"

/-- `readLASInit exC2text`. -/
def exC2a : Las :=
  { version := "2.0", wrap := "NO", delimiter := none, nullValue := none,
    sections := [⟨"C", "~C", ["DEPT."], []⟩, ⟨"A", "~A", ["1", ""], []⟩],
    well := [], params := [], other := [],
    curves := [], rows := [], lineEnding := "\n" }

/-- After the curve-info parse. -/
def exC2b : Las :=
  { exC2a with curves := [⟨"DEPT", "", "", "", "", "DEPT.", []⟩] }

/-- After delimiter resolution (sniffed `SPACE`). -/
def exC2c : Las :=
  { exC2b with delimiter := some "SPACE" }

/-- After the ASCII data parse. -/
def exC2d : Las :=
  { exC2c with rows := [[Cell.num ⟨1, 1⟩]] }

/-- `readLAS exC2text`. -/
def exC2doc : Las :=
  { exC2d with curves := [⟨"DEPT", "", "", "", "", "DEPT.", [Cell.num ⟨1, 1⟩]⟩] }

/-- `writeLAS exC2doc writeOptsDefault`: note the curve-info line
`DEPT    . : ` produced by `formatCurveLine` for the empty unit. -/
def exC2out : String :=
  "~Version\nVERS.  2.0 : LAS version\nWRAP.  NO : One line per depth step\nDLM .  SPACE : Delimiter\n~Well\n~Curve Information\n#MNEM.UNIT         API CODE           : CURVE DESCRIPTION\nDEPT    . : \n~ASCII\n1\n"

/-- `readLASInit exC2out`. -/
def exC2r0 : Las :=
  { version := "2.0", wrap := "NO", delimiter := none, nullValue := none,
    sections :=
      [⟨"VERSION", "~Version",
        ["VERS.  2.0 : LAS version", "WRAP.  NO : One line per depth step",
         "DLM .  SPACE : Delimiter"], []⟩,
       ⟨"WELL", "~Well", [], []⟩,
       ⟨"CURVE", "~Curve Information",
        ["#MNEM.UNIT         API CODE           : CURVE DESCRIPTION", "DEPT    . : "], []⟩,
       ⟨"ASCII", "~ASCII", ["1", ""], []⟩],
    well := [], params := [], other := [],
    curves := [], rows := [], lineEnding := "\n" }

/-- After the version-section parse of the reread (the captured values land
in the unit slots, so `valueRaw` is empty and the document fields keep
their defaults). -/
def exC2r1 : Las :=
  { exC2r0 with sections :=
      [⟨"VERSION", "~Version",
        ["VERS.  2.0 : LAS version", "WRAP.  NO : One line per depth step",
         "DLM .  SPACE : Delimiter"],
        [⟨"VERS", "2.0", "", "LAS version", "VERS.  2.0 : LAS version"⟩,
         ⟨"WRAP", "NO", "", "One line per depth step", "WRAP.  NO : One line per depth step"⟩,
         ⟨"DLM", "SPACE", "", "Delimiter", "DLM .  SPACE : Delimiter"⟩]⟩,
       ⟨"WELL", "~Well", [], []⟩,
       ⟨"CURVE", "~Curve Information",
        ["#MNEM.UNIT         API CODE           : CURVE DESCRIPTION", "DEPT    . : "], []⟩,
       ⟨"ASCII", "~ASCII", ["1", ""], []⟩] }

/-- After the curve-info parse of the reread: the curve regex captures the
lone colon of `DEPT    . : ` as the unit. -/
def exC2r4 : Las :=
  { exC2r1 with curves := [⟨"DEPT", ":", "", "", "", "DEPT    . : ", []⟩] }

/-- After delimiter resolution of the reread. -/
def exC2r7 : Las :=
  { exC2r4 with delimiter := some "SPACE" }

/-- After the ASCII parse of the reread. -/
def exC2r8 : Las :=
  { exC2r7 with rows := [[Cell.num ⟨1, 1⟩]] }

/-- `readLAS exC2out`: the reread document, whose only curve now has
unit `":"`. -/
def exC2redoc : Las :=
  { exC2r8 with curves := [⟨"DEPT", ":", "", "", "", "DEPT    . : ", [Cell.num ⟨1, 1⟩]⟩] }

/-- Example LAS text whose `NULL` well record carries a unit token `M` and
the value `99`. -/
def exC6text : String :=
  "~W\nNULL.M 99 : N\n~A\n1\n"

/-- A small in-memory document (as produced by a load) used by concrete
witnesses: a depth curve, a density curve with a null cell, and a
resistivity curve. -/
def exDoc : Las :=
  { version := "2.0", wrap := "NO", delimiter := some "SPACE", nullValue := some ⟨-1, 1⟩,
    sections := [], well := [], params := [], other := [],
    curves := [⟨"DEPT", "M", "", "", "", "", [Cell.num ⟨100, 1⟩, Cell.num ⟨200, 1⟩]⟩,
               ⟨"RHOB", "K/M3", "", "", "", "", [Cell.null, Cell.num ⟨2000, 1⟩]⟩,
               ⟨"RES", "OHMM", "", "", "", "", [Cell.num ⟨7, 1⟩, Cell.num ⟨8, 1⟩]⟩],
    rows := [[Cell.num ⟨100, 1⟩, Cell.null, Cell.num ⟨7, 1⟩],
             [Cell.num ⟨200, 1⟩, Cell.num ⟨2000, 1⟩, Cell.num ⟨8, 1⟩]],
    lineEnding := "\n" }

/-- A concrete stand-in for the JS `**` operator, used by witnesses. -/
def powW : JsNum → JsNum → JsNum :=
  fun a _ => a

/-- The petrophysical derivation applied to the example document, with the
density curve `RHOB` and the resistivity curve `RES` selected and the
scalars `pma = 3, pf = 1, n = 2, m = 2, rw = 1, cutoff = 0`. -/
def exPetroOut : Las :=
  (createPetroCurve powW exDoc "RHOB" "RES" 3 1 2 2 1 0).getD exDoc

set_option maxRecDepth 4000

/-- Load of the failing input, step by step through the pipeline. -/
theorem exC2_read : readLAS exC2text = exC2doc := by
  unfold readLAS
  rw [show readLASInit exC2text = exC2a by decide]
  rw [show readVersionSection exC2a = exC2a by decide]
  rw [show readWellSection exC2a = exC2a by decide]
  rw [show readParameterSection exC2a = exC2a by decide]
  rw [show readCurveSection exC2a = exC2b by decide]
  rw [show readOtherSection exC2b = exC2b by decide]
  rw [show resolveNullValue exC2b = exC2b by decide]
  rw [show resolveDelimiter exC2b = exC2c by decide]
  rw [show readAsciiSection exC2c = exC2d by decide]
  rw [show convertNullSentinelToNull exC2d = exC2d by decide]
  decide

/-- Serialization of the loaded failing input. -/
theorem exC2_write : writeLAS exC2doc writeOptsDefault = exC2out := by
  decide

/-- Reload of the serialized text, step by step. -/
theorem exC2_reread : readLAS exC2out = exC2redoc := by
  unfold readLAS
  rw [show readLASInit exC2out = exC2r0 by decide]
  rw [show readVersionSection exC2r0 = exC2r1 by decide]
  rw [show readWellSection exC2r1 = exC2r1 by decide]
  rw [show readParameterSection exC2r1 = exC2r1 by decide]
  rw [show readCurveSection exC2r1 = exC2r4 by decide]
  rw [show readOtherSection exC2r4 = exC2r4 by decide]
  rw [show resolveNullValue exC2r4 = exC2r4 by decide]
  rw [show resolveDelimiter exC2r4 = exC2r7 by decide]
  rw [show readAsciiSection exC2r7 = exC2r8 by decide]
  rw [show convertNullSentinelToNull exC2r8 = exC2r8 by decide]
  decide

/-- C2.  The spec's round-trip property promises that reloading the
serialization of a loaded document preserves curve mnemonics, units and
numeric data.  Evaluating the code at the failing input `exC2text` (a curve
defined by the line `DEPT.`, with an empty unit): the mnemonic and the data
round-trip, but the reread unit is `":"` instead of `""` — `formatCurveLine`
collapses the all-blank unit/api/code region to `. : ` and the curve-info
regex of the reader then captures the colon as the unit token.  The claim
itself states the intended behaviour; the writer/reader pair violate it on
this input. -/
theorem loadSerializeLoad_unitCorruption :
    (readLAS exC2text).curves.map Curve.unit = [""] ∧
    (readLAS (writeLAS (readLAS exC2text) writeOptsDefault)).curves.map Curve.unit = [":"] ∧
    (readLAS (writeLAS (readLAS exC2text) writeOptsDefault)).curves.map Curve.mnemonic =
      (readLAS exC2text).curves.map Curve.mnemonic ∧
    (readLAS (writeLAS (readLAS exC2text) writeOptsDefault)).curves.map Curve.data =
      (readLAS exC2text).curves.map Curve.data := by
  rw [exC2_read, exC2_write, exC2_reread]
  decide

/-- C9.  Parsing the operator text `"/0"` fails with the zero-divisor error
(the spec taxonomy's `InvalidOperand`), and the derive flow parses the
operator expression before touching anything else, so it returns the error
and produces no new document — the caller's document is untouched. -/
theorem divideByZero_rejected (las : Las) (srcMnemonic rawName : String)
    (protectedMnemonics : List String) :
    parseOperatorExpr "/0" = Except.error OpParseError.divisionByZero ∧
    applyEditsDerive las srcMnemonic "/0" rawName protectedMnemonics =
      Except.error (EditError.opError OpParseError.divisionByZero) := by
  have h : parseOperatorExpr "/0" = Except.error OpParseError.divisionByZero := by decide
  refine ⟨h, ?_⟩
  unfold applyEditsDerive
  rw [h]

/-- Counterexample to C4 as stated: `DEPTH` is in the default protected set
of `bindRenameDeleteUI` but matches no curve of `exDoc`; the claim calls
this a no-op success, yet the flow checks protection first and fails with
`Protected`. -/
theorem deleteFlow_absentProtected_cex :
    findCurveIdx exDoc "DEPTH" = none ∧
    deleteBtnFlow exDoc "DEPTH" protectedMnemonicsRenameDelete =
      Except.error (EditError.protectedErr "DEPTH") := by
  decide

/-- C4 (amended): deleting a protected mnemonic fails with `Protected`
without producing a new document, and deleting a mnemonic that is *not
protected* and matches no curve is a no-op success returning the document
unchanged.  (Protection is checked before the lookup, so the unprotected
qualifier is necessary — see the counterexample.) -/
theorem deleteFlow_protected_and_missing (las : Las) (mnemonic : String)
    (prot : List String) :
    (isProtected mnemonic prot = true →
      deleteBtnFlow las mnemonic prot = Except.error (EditError.protectedErr mnemonic)) ∧
    (isProtected mnemonic prot = false → findCurveIdx las mnemonic = none →
      deleteBtnFlow las mnemonic prot = Except.ok las) := by
  constructor
  · intro h
    simp [deleteBtnFlow, h]
  · intro h h2
    simp [deleteBtnFlow, h, deleteCurve, h2]

/-- Witness for the amended C4 at a concrete input: `GRX` is unprotected and
absent, and the delete flow returns the very same document. -/
theorem deleteFlow_protected_and_missing_witness :
    deleteBtnFlow exDoc "GRX" protectedMnemonicsRenameDelete = Except.ok exDoc :=
  (deleteFlow_protected_and_missing exDoc "GRX" protectedMnemonicsRenameDelete).2
    (by decide) (by decide)

/-- Counterexample to C6 as stated: in `exC6text` the `NULL` well record is
`NULL.M 99 : N`, whose *value* slot holds `99` (finite), yet the null value
stays unresolved — `getNullValue` parses the record's unit slot (`M`), not
its value. -/
theorem nullValue_valueSlot_cex :
    (mapGet (readLAS exC6text).well "NULL").map KvItem.valueRaw = some "99" ∧
    (mapGet (readLAS exC6text).well "NULL").map KvItem.unit = some "M" ∧
    parseFloatJs "99" = some ⟨99, 1⟩ ∧
    jsFinite ⟨99, 1⟩ = true ∧
    (readLAS exC6text).nullValue = none := by
  decide

/-- C6 (amended): the null sentinel is resolved by parsing the `NULL` well
record's *unit slot* — the first token after the dot, which is where the
sentinel of the common `NULL. -999.25 : ...` layout is captured — as a
float; if the record is absent or that parse is not finite, the null value
stays unresolved, and serialization then emits the literal token `NaN` for
null (and any other non-finite or undefined) cells. -/
theorem nullValue_resolution (las : Las) :
    (mapGet las.well "NULL" = none → mapGet las.well "NULL " = none →
      getNullValue las = las.nullValue) ∧
    (∀ item q, mapGet las.well "NULL" = some item → parseFloatJs item.unit = some q →
      jsFinite q = true → getNullValue las = some q) ∧
    (∀ item, mapGet las.well "NULL" = some item → parseFloatJs item.unit = none →
      getNullValue las = las.nullValue) ∧
    (∀ item q, mapGet las.well "NULL" = some item → parseFloatJs item.unit = some q →
      jsFinite q = false → getNullValue las = las.nullValue) ∧
    (∀ c precision, cellNullish c = true → formatNumber c none precision = "NaN") := by
  refine ⟨?_, ?_, ?_, ?_, ?_⟩
  · intro h h2
    simp [getNullValue, h, h2, Option.orElse]
  · intro item q h hq hfin
    simp [getNullValue, h, Option.orElse, hq, hfin]
  · intro item h hq
    simp [getNullValue, h, Option.orElse, hq]
  · intro item q h hq hfin
    simp [getNullValue, h, Option.orElse, hq, hfin]
  · intro c precision hc
    cases c <;> simp_all [formatNumber, cellNullish]

/-- Witness for the amended C6 at a concrete input: a document whose `NULL`
record has `-999.25` in its unit slot resolves the sentinel to `-999.25`. -/
theorem nullValue_resolution_witness :
    getNullValue
      { exDoc with nullValue := none,
                   well := [("NULL", ⟨"NULL", "-999.25", "", "Null value", "NULL. -999.25 : Null value"⟩)] } =
      some ⟨-99925, 100⟩ :=
  (nullValue_resolution _).2.1 ⟨"NULL", "-999.25", "", "Null value", "NULL. -999.25 : Null value"⟩
    ⟨-99925, 100⟩ (by decide) (by decide) (by decide)

/-- The characters emitted by `fracDigitsStr` are decimal digits, in
particular never a dot. -/
theorem digitChar_ne_dot (m : ℕ) : Char.ofNat (48 + m % 10) ≠ '.' := by
  have h : m % 10 < 10 := Nat.mod_lt _ (by norm_num)
  set d := m % 10 with hd
  interval_cases d <;> decide

/-- No character of `fracDigitsStr n p` is a dot. -/
theorem fracDigitsStr_no_dot (n p : ℕ) :
    ∀ c ∈ (fracDigitsStr n p).toList, (c ≠ '.' : Bool) := by
  intro c hc
  simp only [fracDigitsStr, String.toList, List.mem_map] at hc
  obtain ⟨j, _, rfl⟩ := hc
  simpa using digitChar_ne_dot (n / 10 ^ (p - 1 - j))

/-- For a positive precision, the fixed-point string produced by
`jsToFixed` has exactly `p` characters after its final dot. -/
theorem jsToFixed_decimals (q : JsNum) (p : ℕ) (hp : 0 < p) :
    ((jsToFixed q p).toList.reverse.takeWhile (fun c => c ≠ '.')).length = p := by
  have hp0 : p ≠ 0 := hp.ne'
  simp only [jsToFixed, hp0, if_false, String.toList, String.data_append]
  rw [List.reverse_append, List.reverse_append]
  have hfrac : ∀ c ∈ (fracDigitsStr ((((q.absv * pow10 p + JsNum.mk 1 2).floorv).toNat)) p).data.reverse,
      (fun c => (c ≠ '.' : Bool)) c = true := by
    intro c hc
    rw [List.mem_reverse] at hc
    simpa using fracDigitsStr_no_dot _ p c hc
  rw [List.append_assoc, List.takeWhile_append_of_pos hfrac]
  simp [List.reverse_append, List.takeWhile, fracDigitsStr]

/-- Counterexample to C7 as stated: `-0.00001` with precision 4 rounds to
zero and is negative, yet the writer emits `-0.0000` — the negative-zero
suppression only checks the exact strings `-0.0`, `-0.00` and `-0.000`. -/
theorem formatNumber_negZero_cex :
    ((JsNum.mk (-1) 100000).absv * pow10 4 + JsNum.mk 1 2).floorv = 0 ∧
    (JsNum.mk (-1) 100000).isNeg = true ∧
    formatNumber (Cell.num ⟨-1, 100000⟩) none (some 4) = "-0.0000" := by
  decide

/-- C7 (amended): with a configured precision the writer emits
`v.toFixed(p)` — a fixed-point string with exactly `p` digits after the
final dot — except that the exact strings `-0.0`, `-0.00` and `-0.000` lose
their minus sign; so negative zero is suppressed to its positive form only
for precisions 1–3 (a negative value rounding to zero at any other
precision keeps its minus sign, see the counterexample); with no configured
precision the value's default decimal text form is emitted. -/
theorem formatNumber_precision (q : JsNum) (nv : Option JsNum) :
    (formatNumber (Cell.num q) nv none = numToString q) ∧
    (∀ p : ℕ, 0 < p →
      ((jsToFixed q p).toList.reverse.takeWhile (fun c => c ≠ '.')).length = p) ∧
    (∀ p : ℕ, formatNumber (Cell.num q) nv (some p) = jsToFixed q p ∨
      formatNumber (Cell.num q) nv (some p) = String.mk ((jsToFixed q p).toList.drop 1)) ∧
    (∀ p : ℕ, (p = 1 ∨ p = 2 ∨ p = 3) → q.isNeg = true →
      ((q.absv * pow10 p + JsNum.mk 1 2).floorv).toNat = 0 →
      formatNumber (Cell.num q) nv (some p) =
        String.mk ('0' :: '.' :: List.replicate p '0')) := by
  refine ⟨rfl, fun p hp => jsToFixed_decimals q p hp, ?_, ?_⟩
  · intro p
    by_cases h : jsToFixed q p = "-0.000" ∨ jsToFixed q p = "-0.00" ∨ jsToFixed q p = "-0.0"
    · right
      simp only [formatNumber]
      rcases h with h | h | h <;> rw [h] <;> simp [h]
    · left
      push_neg at h
      simp only [formatNumber]
      rw [if_neg]
      simp only [Bool.or_eq_true, decide_eq_true_eq]
      push_neg
      exact ⟨⟨h.1, h.2.1⟩, h.2.2⟩
  · intro p hp hneg hzero
    rcases hp with rfl | rfl | rfl <;>
      · simp only [formatNumber, jsToFixed, hneg, hzero]
        decide

/-- Witness for the amended C7 at a concrete input: `-0.001` at precision 2
rounds to zero and the minus sign is suppressed. -/
theorem formatNumber_precision_witness :
    formatNumber (Cell.num ⟨-1, 1000⟩) none (some 2) =
      String.mk ('0' :: '.' :: List.replicate 2 '0') :=
  (formatNumber_precision ⟨-1, 1000⟩ none).2.2.2 2 (Or.inr (Or.inl rfl)) (by decide) (by decide)

/-- A successful curve lookup returns an index inside the curve list. -/
theorem findCurveIdx_lt_length {las : Las} {m : String} {i : ℕ}
    (h : findCurveIdx las m = some i) : i < las.curves.length := by
  unfold findCurveIdx at h
  exact (List.findIdx?_eq_some_iff_findIdx_eq.mp h).1

/-- `ensureRowsFromCurves` never touches the curve list. -/
theorem ensureRows_curves (las : Las) : (ensureRowsFromCurves las).curves = las.curves :=
  rfl

/-- C8.  For every supported operator and every source cell that is null, a
hole, or a non-finite number, the arithmetic derive operation writes
logical null into the destination curve's cell at the same index — never
`NaN` or an infinity.  The destination index is the overwritten curve's
index when the name already resolves, else the index of the appended
curve. -/
theorem deriveCurve_null_propagation (las : Las) (src out : String) (oe : OpExpr)
    (las' : Las) (si i : ℕ) (c : Cell)
    (hsi : findCurveIdx las src = some si)
    (h : addDerivedCurveNamed las src out oe = some las')
    (hc : (las.curves.getD si default).data[i]? = some c)
    (hnull : cellNullish c = true) :
    (las'.curves.getD ((findCurveIdx las out).getD las.curves.length) default).data[i]? =
      some Cell.null := by
  have hcell : (deriveData (las.curves.getD si default).data oe.op oe.k)[i]? = some Cell.null := by
    unfold deriveData
    rw [List.getElem?_map, hc]
    cases c <;> simp_all [cellNullish]
  unfold addDerivedCurveNamed at h
  rw [hsi] at h
  cases hout : findCurveIdx las out with
  | none =>
    rw [hout] at h
    simp only [Option.some.injEq] at h
    subst h
    simp only [Option.getD_none, ensureRows_curves, List.getD_eq_getElem?_getD,
      List.getElem?_concat_length, Option.getD_some]
    simpa [List.getD_eq_getElem?_getD] using hcell
  | some di =>
    rw [hout] at h
    simp only [Option.some.injEq] at h
    subst h
    have hdi : di < las.curves.length := findCurveIdx_lt_length hout
    simp only [Option.getD_some, ensureRows_curves, List.getD_eq_getElem?_getD,
      List.getElem?_mapIdx, List.getElem?_eq_getElem hdi, Option.map_some']
    simpa [List.getD_eq_getElem?_getD] using hcell

/-- Witness for C8 at a concrete input: deriving `X = RHOB * 2` on `exDoc`
maps the null density cell at row 0 to null. -/
theorem deriveCurve_null_propagation_witness :
    ∃ las', addDerivedCurveNamed exDoc "RHOB" "X" ⟨ArithOp.mul, ⟨2, 1⟩⟩ = some las' ∧
      (las'.curves.getD ((findCurveIdx exDoc "X").getD exDoc.curves.length) default).data[0]? =
        some Cell.null := by
  refine ⟨(addDerivedCurveNamed exDoc "RHOB" "X" ⟨ArithOp.mul, ⟨2, 1⟩⟩).getD exDoc, ?_, ?_⟩
  · decide
  · exact deriveCurve_null_propagation exDoc "RHOB" "X" ⟨ArithOp.mul, ⟨2, 1⟩⟩ _ 1 0 Cell.null
      (by decide) (by decide) (by decide) (by decide)

/-- The `curves[idx].mnemonic = new` style in-place update of the source,
written as `mapIdx`, is a `List.set` at the updated index. -/
theorem mapIdx_ite_set {α : Type} (l : List α) (i : ℕ) (f : α → α) (a : α)
    (ha : l[i]? = some a) :
    (l.mapIdx fun j x => if j = i then f x else x) = l.set i (f a) := by
  apply List.ext_getElem?
  intro n
  rw [List.getElem?_mapIdx, List.getElem?_set]
  by_cases hn : n = i
  · subst hn
    rw [ha]
    simp [List.getElem?_eq_some.mp ha |>.1]
  · rw [if_neg fun hh => hn hh.symm]
    cases hln : l[n]? with
    | none => rfl
    | some b => simp [if_neg hn]

/-- Setting an element that occurs nowhere in a duplicate-free list keeps it
duplicate-free. -/
theorem nodup_set {α : Type} (l : List α) (i : ℕ) (a : α)
    (h : l.Nodup) (ha : a ∉ l) : (l.set i a).Nodup := by
  induction l generalizing i with
  | nil => simp
  | cons x xs ih =>
    cases i with
    | zero =>
      simp only [List.set_cons_zero, List.nodup_cons] at h ⊢
      exact ⟨fun hmem => ha (List.mem_cons_of_mem _ hmem), h.2⟩
    | succ n =>
      simp only [List.set_cons_succ, List.nodup_cons] at h ⊢
      refine ⟨fun hmem => ?_, ih n h.2 (fun hmem => ha (List.mem_cons_of_mem _ hmem))⟩
      rcases List.mem_or_eq_of_mem_set hmem with hx | rfl
      · exact h.1 hx
      · exact ha (List.mem_cons_self _ _)

/-- Counterexample to C5 as stated: renaming the protected curve `DEPT` to
`DEPT` (the new mnemonic case-insensitively equals the old one) should be a
successful no-op per the claim, but the editor checks protection first and
fails with `Protected`. -/
theorem renameFlow_protectedNoop_cex :
    jsToUpper (sanitizeMnemonic "DEPT") = jsToUpper "DEPT" ∧
    applyEditsRename exDoc "DEPT" "DEPT" protectedMnemonicsEditor =
      Except.error (EditError.protectedErr "DEPT") := by
  decide

/-- C5 (amended): provided the old mnemonic is not protected (protection is
checked first), renaming is a successful no-op returning the unchanged
document when the sanitised new mnemonic case-insensitively equals the old
one, and fails with `Collision` when it case-insensitively matches any
existing curve instead; and every successful rename preserves the
case-insensitive uniqueness of the curve mnemonics. -/
theorem renameFlow_collision_noop_unique (las : Las) (src raw : String)
    (prot : List String) :
    (isProtected src prot = false →
      (jsToUpper (sanitizeMnemonic raw) = jsToUpper src → sanitizeMnemonic raw ≠ "" →
        applyEditsRename las src raw prot = Except.ok las) ∧
      (jsToUpper (sanitizeMnemonic raw) ≠ jsToUpper src → sanitizeMnemonic raw ≠ "" →
        las.curves.any (fun c => jsToUpper c.mnemonic = jsToUpper (sanitizeMnemonic raw)) = true →
        applyEditsRename las src raw prot =
          Except.error (EditError.collision (sanitizeMnemonic raw)))) ∧
    (∀ las', applyEditsRename las src raw prot = Except.ok las' →
      mnemsUnique las → mnemsUnique las') := by
  constructor
  · intro hprot
    constructor
    · intro heq hne
      simp [applyEditsRename, hprot, hne, heq]
    · intro hne hname hcol
      simp [applyEditsRename, hprot, hname, hne, hcol]
  · intro las' h hU
    unfold applyEditsRename at h
    by_cases h1 : isProtected src prot = true
    · rw [if_pos h1] at h
      simp at h
    rw [if_neg h1] at h
    by_cases h2 : sanitizeMnemonic raw = ""
    · rw [if_pos h2] at h
      simp at h
    rw [if_neg h2] at h
    by_cases h3 : jsToUpper (sanitizeMnemonic raw) = jsToUpper src
    · rw [if_pos h3] at h
      injection h with h
      subst h
      exact hU
    rw [if_neg h3] at h
    by_cases h4 :
      (las.curves.any fun c => jsToUpper c.mnemonic = jsToUpper (sanitizeMnemonic raw)) = true
    · rw [if_pos h4] at h
      simp at h
    rw [if_neg h4] at h
    revert h
    cases hr : renameCurve las src (sanitizeMnemonic raw) with
    | none =>
      intro h
      simp at h
    | some l2 =>
      intro h
      injection h with h
      subst h
      unfold renameCurve at hr
      cases hidx : findCurveIdx las src with
      | none => rw [hidx] at hr; cases hr
      | some idx =>
        rw [hidx] at hr
        simp only [Option.some.injEq] at hr
        subst hr
        have hlt : idx < las.curves.length := findCurveIdx_lt_length hidx
        have hget : las.curves[idx]? = some las.curves[idx] := List.getElem?_eq_getElem hlt
        unfold mnemsUnique at hU ⊢
        rw [mapIdx_ite_set las.curves idx _ _ hget, List.map_set]
        apply nodup_set _ _ _ hU
        intro hmem
        rw [List.mem_map] at hmem
        obtain ⟨c, hcmem, hceq⟩ := hmem
        simp only at hceq
        exact h4 (List.any_eq_true.mpr ⟨c, hcmem, by simp [hceq]⟩)

/-- Witness for the amended C5 statement: on the example document, renaming
the unprotected curve `RHOB` to `rhob` is a no-op success, renaming it to
`res` collides with the existing `RES` curve, and the no-op preserves the
case-insensitive uniqueness of the mnemonics. -/
theorem renameFlow_collision_noop_unique_witness :
    applyEditsRename exDoc "RHOB" "rhob" protectedMnemonicsEditor = Except.ok exDoc ∧
    applyEditsRename exDoc "RHOB" "res" protectedMnemonicsEditor =
      Except.error (EditError.collision "RES") ∧
    mnemsUnique exDoc := by
  refine ⟨?_, ?_, ?_⟩
  · exact ((renameFlow_collision_noop_unique exDoc "RHOB" "rhob"
      protectedMnemonicsEditor).1 (by decide)).1 (by decide) (by decide)
  · exact ((renameFlow_collision_noop_unique exDoc "RHOB" "res"
      protectedMnemonicsEditor).1 (by decide)).2 (by decide) (by decide) (by decide)
  · exact (renameFlow_collision_noop_unique exDoc "RHOB" "rhob"
      protectedMnemonicsEditor).2 exDoc
      (((renameFlow_collision_noop_unique exDoc "RHOB" "rhob"
        protectedMnemonicsEditor).1 (by decide)).1 (by decide) (by decide))
      (by unfold mnemsUnique; decide)

theorem petroArrays_fst (pw : JsNum → JsNum → JsNum) (pma pf n m rw cutoff : JsNum)
    (dData rData : List Cell) :
    (petroArrays pw pma pf n m rw cutoff dData rData).1 =
      dData.map (fun v =>
        match v with
        | Cell.num q => Cell.num (100 * (pma - q) / (pma - pf))
        | _ => Cell.null) :=
  rfl

theorem petroArrays_snd (pw : JsNum → JsNum → JsNum) (pma pf n m rw cutoff : JsNum)
    (dData rData : List Cell) :
    (petroArrays pw pma pf n m rw cutoff dData rData).2 =
      (List.range dData.length).map (fun i =>
        match dData.getD i Cell.undef with
        | Cell.num q =>
          Cell.num (100 * pw (rw / (pw (JsNum.maxv ((100 * (pma - q) / (pma - pf)) / 100)
            (cutoff / 100)) m * cellArith (rData.getD i Cell.undef))) (1 / n))
        | _ => Cell.undef) :=
  rfl

theorem foldl_max_ge_init (l : List ℕ) (init : ℕ) :
    init ≤ l.foldl (fun m x => if x > m then x else m) init := by
  induction l generalizing init with
  | nil => exact le_refl _
  | cons x xs ih =>
    simp only [List.foldl_cons]
    by_cases hx : x > init
    · rw [if_pos hx]
      exact le_trans (le_of_lt hx) (ih x)
    · rw [if_neg hx]
      exact ih init

theorem foldl_max_ge_mem {a : ℕ} :
    ∀ (l : List ℕ) (init : ℕ), a ∈ l →
      a ≤ l.foldl (fun m x => if x > m then x else m) init := by
  intro l
  induction l with
  | nil => intro init h; cases h
  | cons x xs ih =>
    intro init h
    simp only [List.foldl_cons]
    rcases List.mem_cons.mp h with rfl | hmem
    · by_cases hx : a > init
      · rw [if_pos hx]
        exact foldl_max_ge_init xs a
      · rw [if_neg hx]
        exact le_trans (Nat.le_of_not_lt hx) (foldl_max_ge_init xs init)
    · by_cases hx : x > init
      · rw [if_pos hx]
        exact ih x hmem
      · rw [if_neg hx]
        exact ih init hmem

theorem maxLen_ge {a : ℕ} {l : List ℕ} (h : a ∈ l) : a ≤ maxLen l :=
  foldl_max_ge_mem l 0 h

theorem ensureRows_row_length (las : Las) (r : ℕ)
    (h : r < maxLen (las.curves.map (fun c => c.data.length))) :
    ∃ row, (ensureRowsFromCurves las).rows[r]? = some row ∧
      row.length = las.curves.length := by
  unfold ensureRowsFromCurves
  dsimp only
  rw [List.getElem?_map, List.getElem?_range h]
  refine ⟨_, rfl, ?_⟩
  rw [List.length_zipWith]
  cases hrow : las.rows.get? r with
  | none => simp
  | some row =>
    simp only [List.length_append, List.length_take, List.length_replicate]
    omega

theorem createPetroCurve_created (pw : JsNum → JsNum → JsNum) (las : Las)
    (dMn rMn : String) (pma pf n m rw cutoff : JsNum) (di ri : ℕ) (las' : Las)
    (hd : findCurveIdx las dMn = some di)
    (hr : findCurveIdx las rMn = some ri)
    (hD : findCurveIdx las "DPHIX" = none)
    (hS : findCurveIdx las "SWARCH" = none)
    (h : createPetroCurve pw las dMn rMn pma pf n m rw cutoff = some las') :
    las'.curves = las.curves ++
      [⟨"DPHIX", "%", (las.curves.getD di default).api, (las.curves.getD di default).code,
        "Porosity from bulk density", "",
        (petroArrays pw pma pf n m rw cutoff (las.curves.getD di default).data
          (las.curves.getD di default).data).1⟩,
       ⟨"SWARCH", "%", (las.curves.getD di default).api, (las.curves.getD di default).code,
        "Porosity from bulk density", "",
        (petroArrays pw pma pf n m rw cutoff (las.curves.getD di default).data
          (las.curves.getD di default).data).2⟩] := by
  unfold createPetroCurve at h
  rw [hd, hr, hD, hS] at h
  simp only [Option.some.injEq] at h
  subst h
  simp [ensureRows_curves]

/-- C3: when the petro derivation creates its two output curves (both
density and resistivity selections resolve, and no `DPHIX`/`SWARCH` curve
exists yet), then at every row index `i` whose density cell holds a value
`q` the new `DPHIX` curve holds `100 * (pma - q) / (pma - pf)` and the new
`SWARCH` curve holds
`100 * ((rw / (max(dphi/100, cutoff/100) ** m * r)) ** (1/n))` with the
resistivity input `r` read from the density curve's data (so `r = q`, the
existing-behaviour quirk: the selected resistivity curve is only required
to exist); and at every index whose density cell is null, an array hole or
non-finite the `DPHIX` cell is null. -/
theorem createPetroCurve_formulas (pw : JsNum → JsNum → JsNum) (las : Las)
    (dMn rMn : String) (pma pf n m rw cutoff : JsNum) (di ri : ℕ) (las' : Las)
    (hd : findCurveIdx las dMn = some di)
    (hr : findCurveIdx las rMn = some ri)
    (hD : findCurveIdx las "DPHIX" = none)
    (hS : findCurveIdx las "SWARCH" = none)
    (h : createPetroCurve pw las dMn rMn pma pf n m rw cutoff = some las') :
    (∀ (i : ℕ) (q : JsNum), (las.curves.getD di default).data[i]? = some (Cell.num q) →
      (las'.curves.getD las.curves.length default).data[i]? =
        some (Cell.num (100 * (pma - q) / (pma - pf))) ∧
      (las'.curves.getD (las.curves.length + 1) default).data[i]? =
        some (Cell.num (100 * pw (rw /
          (pw (JsNum.maxv ((100 * (pma - q) / (pma - pf)) / 100) (cutoff / 100)) m * q))
          (1 / n)))) ∧
    (∀ (i : ℕ) (c : Cell), (las.curves.getD di default).data[i]? = some c →
      (∀ q, c ≠ Cell.num q) →
      (las'.curves.getD las.curves.length default).data[i]? = some Cell.null) := by
  have hc := createPetroCurve_created pw las dMn rMn pma pf n m rw cutoff di ri las' hd hr hD hS h
  have hDp : las'.curves.getD las.curves.length default =
      ⟨"DPHIX", "%", (las.curves.getD di default).api, (las.curves.getD di default).code,
        "Porosity from bulk density", "",
        (petroArrays pw pma pf n m rw cutoff (las.curves.getD di default).data
          (las.curves.getD di default).data).1⟩ := by
    rw [List.getD_eq_getElem?_getD, hc, List.getElem?_append_right (le_refl _), Nat.sub_self]
    rfl
  have hSw : las'.curves.getD (las.curves.length + 1) default =
      ⟨"SWARCH", "%", (las.curves.getD di default).api, (las.curves.getD di default).code,
        "Porosity from bulk density", "",
        (petroArrays pw pma pf n m rw cutoff (las.curves.getD di default).data
          (las.curves.getD di default).data).2⟩ := by
    rw [List.getD_eq_getElem?_getD, hc, List.getElem?_append_right (Nat.le_succ _)]
    have hone : las.curves.length.succ - las.curves.length = 1 := by omega
    rw [hone]
    rfl
  constructor
  · intro i q hq
    have hlt : i < (las.curves.getD di default).data.length :=
      (List.getElem?_eq_some.mp hq).1
    have hgd : (las.curves.getD di default).data.getD i Cell.undef = Cell.num q := by
      rw [List.getD_eq_getElem?_getD, hq]
      rfl
    constructor
    · rw [hDp]
      dsimp only
      rw [petroArrays_fst, List.getElem?_map, hq]
      rfl
    · rw [hSw]
      dsimp only
      rw [petroArrays_snd, List.getElem?_map, List.getElem?_range hlt, Option.map_some']
      show some (match (las.curves.getD di default).data.getD i Cell.undef with
        | Cell.num q =>
          Cell.num (100 * pw (rw / (pw (JsNum.maxv ((100 * (pma - q) / (pma - pf)) / 100)
            (cutoff / 100)) m *
            cellArith ((las.curves.getD di default).data.getD i Cell.undef))) (1 / n))
        | _ => Cell.undef) = _
      rw [hgd]
      rfl
  · intro i c hq hnot
    rw [hDp]
    dsimp only
    rw [petroArrays_fst, List.getElem?_map, hq]
    cases c with
    | num q => exact absurd rfl (hnot q)
    | nan => rfl
    | inf => rfl
    | ninf => rfl
    | null => rfl
    | undef => rfl

/-- Witness for C3: concrete petro derivation on the example document with
`pma = 3, pf = 1, n = 2, m = 2, rw = 1, cutoff = 0`; at row 1 the density
value is `2000` and both formulas are evaluated (the resistivity input of
the saturation formula is the density value `2000`); at row 0 the density
cell is null and the porosity cell is null. -/
theorem createPetroCurve_formulas_witness :
    (exPetroOut.curves.getD 3 default).data[1]? =
      some (Cell.num (100 * (3 - (⟨2000, 1⟩ : JsNum)) / (3 - 1))) ∧
    (exPetroOut.curves.getD 4 default).data[1]? =
      some (Cell.num (100 * powW (1 /
        (powW (JsNum.maxv ((100 * (3 - (⟨2000, 1⟩ : JsNum)) / (3 - 1)) / 100) (0 / 100)) 2 *
          (⟨2000, 1⟩ : JsNum))) (1 / 2))) ∧
    (exPetroOut.curves.getD 3 default).data[0]? = some Cell.null := by
  have hmain := createPetroCurve_formulas powW exDoc "RHOB" "RES" 3 1 2 2 1 0 1 2 exPetroOut
    (by decide) (by decide) (by decide) (by decide) rfl
  refine ⟨?_, ?_, ?_⟩
  · exact (hmain.1 1 ⟨2000, 1⟩ (by decide)).1
  · exact (hmain.1 1 ⟨2000, 1⟩ (by decide)).2
  · exact hmain.2 0 Cell.null (by decide) (fun q hq => Cell.noConfusion hq)

theorem mapIdx_set_getD (rows : List (List Cell)) (k : ℕ) (vals : List Cell) (i : ℕ)
    (row : List Cell) (hrow : rows[i]? = some row) (hk : k < row.length)
    (hv : vals[i]? = some Cell.undef) (hi : i < vals.length) :
    ((rows.mapIdx (fun r rw0 => rw0.set k
        (if r < vals.length then vals.getD r Cell.undef else Cell.null))).getD i []).getD
      k Cell.null = Cell.undef := by
  rw [List.getD_eq_getElem?_getD, List.getD_eq_getElem?_getD, List.getElem?_mapIdx, hrow,
    Option.map_some']
  show ((row.set k (if i < vals.length then vals.getD i Cell.undef else Cell.null))[k]?).getD
    Cell.null = Cell.undef
  rw [if_pos hi]
  have hvd : vals.getD i Cell.undef = Cell.undef := by
    rw [List.getD_eq_getElem?_getD, hv]
    rfl
  rw [hvd, List.getElem?_set_self hk]
  rfl

theorem rows_tail_lemma (lasS : Las) (k : ℕ) (vals : List Cell) (i : ℕ)
    (hmax : i < maxLen (lasS.curves.map (fun c => c.data.length)))
    (hk : k < lasS.curves.length)
    (hv : vals[i]? = some Cell.undef) (hi : i < vals.length) :
    (((ensureRowsFromCurves lasS).rows.mapIdx (fun r rw0 => rw0.set k
        (if r < vals.length then vals.getD r Cell.undef else Cell.null))).getD i []).getD
      k Cell.null = Cell.undef := by
  obtain ⟨row, hrow, hlen⟩ := ensureRows_row_length lasS i hmax
  exact mapIdx_set_getD _ k vals i row hrow (by rw [hlen]; exact hk) hv hi

/-- C10: when the petro derivation creates its two output curves, at every
row index whose density cell is null, an array hole or non-finite: the new
`SWARCH` curve carries an array hole (undefined), not logical null, and so
does the corresponding table cell, while the new `DPHIX` curve carries
logical null there; the resolved null sentinel is untouched, the writer's
row rebuild turns the hole into a null cell, and serialization therefore
emits the null-sentinel text for it. -/
theorem createPetroCurve_holes (pw : JsNum → JsNum → JsNum) (las : Las)
    (dMn rMn : String) (pma pf n m rw cutoff : JsNum) (di ri : ℕ) (las' : Las)
    (i : ℕ) (c : Cell)
    (hd : findCurveIdx las dMn = some di)
    (hr : findCurveIdx las rMn = some ri)
    (hD : findCurveIdx las "DPHIX" = none)
    (hS : findCurveIdx las "SWARCH" = none)
    (h : createPetroCurve pw las dMn rMn pma pf n m rw cutoff = some las')
    (hq : (las.curves.getD di default).data[i]? = some c)
    (hnot : ∀ q, c ≠ Cell.num q) :
    (las'.curves.getD (las.curves.length + 1) default).data[i]? = some Cell.undef ∧
    (las'.rows.getD i []).getD (las.curves.length + 1) Cell.null = Cell.undef ∧
    (las'.curves.getD las.curves.length default).data[i]? = some Cell.null ∧
    las'.nullValue = las.nullValue ∧
    ((rebuildRowsFromCurves las').getD i []).getD (las.curves.length + 1) Cell.undef =
      Cell.null ∧
    (∀ nv prec, las'.nullValue = some nv →
      formatNumber (((rebuildRowsFromCurves las').getD i []).getD (las.curves.length + 1)
        Cell.undef) las'.nullValue prec = numToString nv) := by
  have hc := createPetroCurve_created pw las dMn rMn pma pf n m rw cutoff di ri las' hd hr hD hS h
  have hlt : i < (las.curves.getD di default).data.length :=
    (List.getElem?_eq_some.mp hq).1
  have hgd : (las.curves.getD di default).data.getD i Cell.undef = c := by
    rw [List.getD_eq_getElem?_getD, hq]
    rfl
  have hswi : (petroArrays pw pma pf n m rw cutoff (las.curves.getD di default).data
      (las.curves.getD di default).data).2[i]? = some Cell.undef := by
    rw [petroArrays_snd, List.getElem?_map, List.getElem?_range hlt, Option.map_some', hgd]
    cases c with
    | num q => exact absurd rfl (hnot q)
    | nan => rfl
    | inf => rfl
    | ninf => rfl
    | null => rfl
    | undef => rfl
  have hswlen : (petroArrays pw pma pf n m rw cutoff (las.curves.getD di default).data
      (las.curves.getD di default).data).2.length =
      (las.curves.getD di default).data.length := by
    rw [petroArrays_snd, List.length_map, List.length_range]
  have hSw : las'.curves.getD (las.curves.length + 1) default =
      ⟨"SWARCH", "%", (las.curves.getD di default).api, (las.curves.getD di default).code,
        "Porosity from bulk density", "",
        (petroArrays pw pma pf n m rw cutoff (las.curves.getD di default).data
          (las.curves.getD di default).data).2⟩ := by
    rw [List.getD_eq_getElem?_getD, hc, List.getElem?_append_right (Nat.le_succ _)]
    have hone : las.curves.length.succ - las.curves.length = 1 := by omega
    rw [hone]
    rfl
  have hDp : las'.curves.getD las.curves.length default =
      ⟨"DPHIX", "%", (las.curves.getD di default).api, (las.curves.getD di default).code,
        "Porosity from bulk density", "",
        (petroArrays pw pma pf n m rw cutoff (las.curves.getD di default).data
          (las.curves.getD di default).data).1⟩ := by
    rw [List.getD_eq_getElem?_getD, hc, List.getElem?_append_right (le_refl _), Nat.sub_self]
    rfl
  have h1 : (las'.curves.getD (las.curves.length + 1) default).data[i]? = some Cell.undef := by
    rw [hSw]
    exact hswi
  have h2 : (las'.curves.getD las.curves.length default).data[i]? = some Cell.null := by
    rw [hDp]
    dsimp only
    rw [petroArrays_fst, List.getElem?_map, hq]
    cases c with
    | num q => exact absurd rfl (hnot q)
    | nan => rfl
    | inf => rfl
    | ninf => rfl
    | null => rfl
    | undef => rfl
  have hswq : las'.curves[las.curves.length + 1]? = some
      ⟨"SWARCH", "%", (las.curves.getD di default).api, (las.curves.getD di default).code,
        "Porosity from bulk density", "",
        (petroArrays pw pma pf n m rw cutoff (las.curves.getD di default).data
          (las.curves.getD di default).data).2⟩ := by
    rw [hc, List.getElem?_append_right (Nat.le_succ _)]
    have hone : las.curves.length.succ - las.curves.length = 1 := by omega
    rw [hone]
    rfl
  have hnz : ¬ (las'.curves.length = 0) := by
    rw [hc]
    simp
  have hia : i < (petroArrays pw pma pf n m rw cutoff (las.curves.getD di default).data
      (las.curves.getD di default).data).2.length := by
    rw [hswlen]
    exact hlt
  have hmax : i < maxLen (las'.curves.map (fun cv => cv.data.length)) := by
    refine lt_of_lt_of_le hia (maxLen_ge ?_)
    rw [hc]
    simp only [List.map_append, List.map_cons, List.map_nil]
    exact List.mem_append_right _ (by simp)
  have h4 : las'.nullValue = las.nullValue := by
    unfold createPetroCurve at h
    rw [hd, hr, hD, hS] at h
    simp only [Option.some.injEq] at h
    subst h
    rfl
  have h5 : ((rebuildRowsFromCurves las').getD i []).getD (las.curves.length + 1) Cell.undef
      = Cell.null := by
    unfold rebuildRowsFromCurves
    rw [if_neg hnz]
    rw [List.getD_eq_getElem?_getD, List.getD_eq_getElem?_getD, List.getElem?_map,
      List.getElem?_range hmax, Option.map_some']
    show ((las'.curves.map (fun cv =>
        match cv.data.getD i Cell.undef with
        | Cell.undef => Cell.null
        | v => v))[las.curves.length + 1]?).getD Cell.undef = Cell.null
    rw [List.getElem?_map, hswq, Option.map_some']
    have hgv : (petroArrays pw pma pf n m rw cutoff (las.curves.getD di default).data
        (las.curves.getD di default).data).2.getD i Cell.undef = Cell.undef := by
      rw [List.getD_eq_getElem?_getD, hswi]
      rfl
    show (match (petroArrays pw pma pf n m rw cutoff (las.curves.getD di default).data
        (las.curves.getD di default).data).2.getD i Cell.undef with
      | Cell.undef => Cell.null
      | v => v) = Cell.null
    rw [hgv]
  have h3 : (las'.rows.getD i []).getD (las.curves.length + 1) Cell.null = Cell.undef := by
    have hmax' := hmax
    unfold createPetroCurve at h
    rw [hd, hr, hD, hS] at h
    simp only [Option.some.injEq] at h
    subst h
    dsimp only
    simp only [ensureRows_curves, List.length_append, List.length_singleton]
    apply rows_tail_lemma
    · refine lt_of_lt_of_le hia (maxLen_ge ?_)
      simp only [List.map_append, List.map_cons, List.map_nil]
      exact List.mem_append_right _ (by simp)
    · simp only [List.length_append, List.length_singleton]
      omega
    · exact hswi
    · rw [hswlen]
      exact hlt
  have h6 : ∀ nv prec, las'.nullValue = some nv →
      formatNumber (((rebuildRowsFromCurves las').getD i []).getD (las.curves.length + 1)
        Cell.undef) las'.nullValue prec = numToString nv := by
    intro nv prec hnv
    rw [h5, hnv]
    rfl
  exact ⟨h1, h3, h2, h4, h5, h6⟩

/-- Witness for C10: on the example document, where the `RHOB` density cell
at row 0 is null, the derived `SWARCH` curve and the table carry an array
hole at row 0 while `DPHIX` carries null, and the writer's rebuilt row
prints the null sentinel `-1` there. -/
theorem createPetroCurve_holes_witness :
    (exPetroOut.curves.getD 4 default).data[0]? = some Cell.undef ∧
    (exPetroOut.rows.getD 0 []).getD 4 Cell.null = Cell.undef ∧
    (exPetroOut.curves.getD 3 default).data[0]? = some Cell.null ∧
    exPetroOut.nullValue = some ⟨-1, 1⟩ ∧
    ((rebuildRowsFromCurves exPetroOut).getD 0 []).getD 4 Cell.undef = Cell.null ∧
    formatNumber (((rebuildRowsFromCurves exPetroOut).getD 0 []).getD 4 Cell.undef)
      exPetroOut.nullValue none = numToString ⟨-1, 1⟩ := by
  have hmain := createPetroCurve_holes powW exDoc "RHOB" "RES" 3 1 2 2 1 0 1 2 exPetroOut 0
    Cell.null (by decide) (by decide) (by decide) (by decide) rfl (by decide)
    (fun q hq => Cell.noConfusion hq)
  refine ⟨hmain.1, hmain.2.1, hmain.2.2.1, ?_, hmain.2.2.2.2.1, ?_⟩
  · rw [hmain.2.2.2.1]
    rfl
  · exact hmain.2.2.2.2.2 ⟨-1, 1⟩ none (by rw [hmain.2.2.2.1]; rfl)

theorem pad_len (r : List Cell) (n : ℕ) :
    (if r.length < n then r ++ List.replicate (n - r.length) Cell.null
     else r.take n).length = n := by
  split_ifs with h
  · rw [List.length_append, List.length_replicate]
    omega
  · rw [List.length_take]
    omega

theorem distribute_aligned (las : Las) : rowsAligned (distributeDataIntoCurves las) := by
  unfold rowsAligned distributeDataIntoCurves
  dsimp only
  split_ifs with h1 h2 h3
  all_goals intro row hrow
  all_goals dsimp only at hrow ⊢
  · rw [List.length_eq_zero.mp h2] at hrow
    cases hrow
  · obtain ⟨r, hr, rfl⟩ := List.mem_map.mp hrow
    rw [List.length_mapIdx]
    exact pad_len r _
  · rw [List.length_eq_zero.mp h3] at hrow
    cases hrow
  · obtain ⟨r, hr, rfl⟩ := List.mem_map.mp hrow
    rw [List.length_mapIdx]
    exact pad_len r _

theorem ensureRows_aligned (las : Las) : rowsAligned (ensureRowsFromCurves las) := by
  intro row hrow
  rw [ensureRows_curves]
  unfold ensureRowsFromCurves at hrow
  dsimp only at hrow
  obtain ⟨r, hr, rfl⟩ := List.mem_map.mp hrow
  rw [List.length_zipWith]
  cases hg : las.rows.get? r with
  | none => simp
  | some row0 =>
    simp only [List.length_append, List.length_take, List.length_replicate]
    omega

theorem mapIdx_len_aligned (las2 : Las) (f : ℕ → List Cell → List Cell)
    (hf : ∀ r row, (f r row).length = row.length)
    (h : rowsAligned las2) :
    rowsAligned { las2 with rows := las2.rows.mapIdx f } := by
  intro row hrow
  have hrow2 : row ∈ las2.rows.mapIdx f := hrow
  show row.length = las2.curves.length
  obtain ⟨i, hi⟩ := List.mem_iff_getElem?.mp hrow2
  rw [List.getElem?_mapIdx] at hi
  cases hg : las2.rows[i]? with
  | none => rw [hg] at hi; cases hi
  | some r0 =>
    rw [hg] at hi
    simp only [Option.map_some', Option.some.injEq] at hi
    subst hi
    rw [hf]
    exact h r0 (List.mem_iff_getElem?.mpr ⟨i, hg⟩)

theorem applyEditOp_aligned (las : Las) (op : EditOp) (h : rowsAligned las) :
    rowsAligned (applyEditOp las op) := by
  cases op with
  | rename o nw =>
    show rowsAligned ((renameCurve las o nw).getD las)
    cases hr : renameCurve las o nw with
    | none => exact h
    | some l2 =>
      unfold renameCurve at hr
      cases hidx : findCurveIdx las o with
      | none => rw [hidx] at hr; cases hr
      | some idx =>
        rw [hidx] at hr
        simp only [Option.some.injEq] at hr
        subst hr
        intro row hrow
        show row.length = (las.curves.mapIdx
          (fun j (c : Curve) => if j = idx then { c with mnemonic := nw } else c)).length
        rw [List.length_mapIdx]
        exact h row hrow
  | delete mn =>
    show rowsAligned (deleteCurve las mn)
    unfold deleteCurve
    cases hidx : findCurveIdx las mn with
    | none => exact h
    | some idx =>
      dsimp only
      intro row hrow
      obtain ⟨r, hr, rfl⟩ := List.mem_map.mp hrow
      have hlen := h r hr
      have hlt : idx < las.curves.length := findCurveIdx_lt_length hidx
      rw [if_pos (by omega), List.length_eraseIdx_of_lt (by omega),
        List.length_eraseIdx_of_lt hlt, hlen]
  | derive s o oe =>
    show rowsAligned ((addDerivedCurveNamed las s o oe).getD las)
    cases hr : addDerivedCurveNamed las s o oe with
    | none => exact h
    | some l2 =>
      unfold addDerivedCurveNamed at hr
      cases hsrc : findCurveIdx las s with
      | none => rw [hsrc] at hr; cases hr
      | some srcIdx =>
        rw [hsrc] at hr
        cases hdst : findCurveIdx las o with
        | none =>
          rw [hdst] at hr
          simp only [Option.some.injEq] at hr
          subst hr
          exact mapIdx_len_aligned _ _ (fun r row => List.length_set row _ _)
            (ensureRows_aligned _)
        | some dstIdx =>
          rw [hdst] at hr
          simp only [Option.some.injEq] at hr
          subst hr
          exact mapIdx_len_aligned _ _ (fun r row => List.length_set row _ _)
            (ensureRows_aligned _)
  | petro pw dM rM pma pf n m rw cutoff =>
    show rowsAligned ((createPetroCurve pw las dM rM pma pf n m rw cutoff).getD las)
    cases hr : createPetroCurve pw las dM rM pma pf n m rw cutoff with
    | none => exact h
    | some l2 =>
      unfold createPetroCurve at hr
      cases hd1 : findCurveIdx las dM with
      | none => rw [hd1] at hr; cases hr
      | some di =>
        rw [hd1] at hr
        cases hr1 : findCurveIdx las rM with
        | none => rw [hr1] at hr; cases hr
        | some ri =>
          rw [hr1] at hr
          cases hD0 : findCurveIdx las "DPHIX" <;> cases hS0 : findCurveIdx las "SWARCH" <;>
            rw [hD0, hS0] at hr <;> simp only [Option.some.injEq] at hr <;> subst hr <;>
            exact mapIdx_len_aligned _ _ (fun r row => List.length_set row _ _)
              (ensureRows_aligned _)

theorem applyEditOps_aligned (las : Las) (ops : List EditOp) (h : rowsAligned las) :
    rowsAligned (applyEditOps las ops) := by
  induction ops generalizing las with
  | nil => exact h
  | cons op ops ih => exact ih (applyEditOp las op) (applyEditOp_aligned las op h)

/-- C1: after loading any text and applying any sequence of rename, delete,
derive and petro mutations, every row of the row-major table has exactly one
cell per curve. -/
theorem editSequence_alignment (t : String) (ops : List EditOp) :
    rowsAligned (applyEditOps (readLAS t) ops) :=
  applyEditOps_aligned (readLAS t) ops (distribute_aligned _)
